import Mathlib

/-!
Verification development for the bulk-import-export repository (Go).

The Go sources are shallowly embedded as executable Lean definitions:

* pure helpers (`common/validation.go`, the record validators and
  normalizers) become Lean functions over `String` / association lists;
* the relational store becomes an explicit `DB` structure holding the
  `users`, `articles`, `comments`, `import_jobs` and `export_jobs` tables
  as lists, with GORM operations (`First`, `Save`, `Create`,
  `Clauses(OnConflict...).Create`, raw orphan scans) modelled as list
  operations on that structure;
* external collaborators that are not part of the repository
  (`encoding/json.Unmarshal`, `time.Parse`, `uuid.New`, `time.Now`,
  `bufio.Scanner`, the network and the filesystem) are modelled by small
  concrete Lean functions or by explicit oracle parameters
  (`fileOk`, `qerr`, ...), documented at each definition;
* Go `int` counters are modelled as `Int` (the programs never come close
  to 64-bit overflow, and the orphan reconciliation really can drive a
  counter negative, which `Int` represents faithfully);
* Go `time.Time` values are modelled as `Nat` instants threaded through a
  `Gen` state together with the uuid counter.

Strings are treated as sequences of characters; all concrete inputs used
in witnesses and counterexamples are ASCII, where Go byte length and Lean
character length agree.
-/

namespace BulkIE

/-! ## common/validation.go -/

/-- One field-level validation error (`common.ValidationError`). -/
structure ValidationError where
  field : String
  message : String
deriving DecidableEq, Repr

/-- Validation result for a single record (`common.RecordValidationResult`). -/
structure RecordValidationResult where
  rowNumber : Nat := 0
  recordID : String := ""
  valid : Bool := true
  errors : List ValidationError := []
deriving DecidableEq, Repr

/-- `(*RecordValidationResult).AddError`: sets `Valid = false` and appends
one `(field, message)` pair. -/
def RecordValidationResult.addError (r : RecordValidationResult)
    (field message : String) : RecordValidationResult :=
  { r with valid := false,
           errors := r.errors ++ [{ field := field, message := message }] }

/-- Character class of the local part of `common.emailRegex`:
`[a-zA-Z0-9._%+-]`. -/
def isEmailLocalChar (c : Char) : Bool :=
  c.isAlpha || c.isDigit || c = '.' || c = '_' || c = '%' || c = '+' || c = '-'

/-- Character class of the domain part of `common.emailRegex`:
`[a-zA-Z0-9.-]`. -/
def isEmailDomainChar (c : Char) : Bool :=
  c.isAlpha || c.isDigit || c = '.' || c = '-'

/-- ASCII letter, the TLD class `[a-zA-Z]` of `common.emailRegex`. -/
def isAsciiLetter (c : Char) : Bool :=
  c.isUpper || c.isLower

/-- Whether the character list matches `[a-zA-Z0-9.-]+\.[a-zA-Z]{2,}`,
i.e. some split `l = a ++ "." ++ b` with `a` a nonempty run of domain
characters and `b` at least two ASCII letters.  Matching a full regular
expression against a whole string is split-position search, which is what
this decides. -/
def emailDomainMatches (l : List Char) : Bool :=
  (List.range l.length).any fun i =>
    let a := l.take i
    let rest := l.drop i
    match rest with
    | '.' :: b =>
        !a.isEmpty && a.all isEmailDomainChar && b.length ≥ 2 && b.all isAsciiLetter
    | _ => false

/-- `common.ValidateEmail`: the anchored regex
`^[a-zA-Z0-9._%+-]+@[a-zA-Z0-9.-]+\.[a-zA-Z]{2,}$`.  Neither character
class contains `@`, so a match splits the string at its unique `@`. -/
def validateEmail (s : String) : Bool :=
  if s = "" then false
  else
    let l := s.toList
    (List.range l.length).any fun i =>
      let a := l.take i
      let rest := l.drop i
      match rest with
      | '@' :: b =>
          !a.isEmpty && a.all isEmailLocalChar && emailDomainMatches b
      | _ => false

/-- Split a character list on a separator character; kernel-reducible
analogue of `String.splitOn` for a one-character separator. -/
def splitOnCharAux (sep : Char) : List Char → List Char → List (List Char)
  | [], acc => [acc.reverse]
  | c :: rest, acc =>
      if c = sep then acc.reverse :: splitOnCharAux sep rest []
      else splitOnCharAux sep rest (c :: acc)

/-- Split a character list on a separator character. -/
def splitOnChar (l : List Char) (sep : Char) : List (List Char) :=
  splitOnCharAux sep l []

/-- `strings.TrimSpace`: drop leading and trailing whitespace. -/
def strTrim (s : String) : String :=
  String.mk (((s.toList.dropWhile Char.isWhitespace).reverse.dropWhile
    Char.isWhitespace).reverse)

/-- `strings.ToLower` (ASCII-faithful). -/
def strToLower (s : String) : String :=
  String.mk (s.toList.map Char.toLower)

/-- `common.ValidateKebabCase`: the anchored regex
`^[a-z0-9]+(-[a-z0-9]+)*$`, equivalently: splitting on `-` yields only
nonempty runs of lowercase letters and digits. -/
def validateKebabCase (s : String) : Bool :=
  if s = "" then false
  else
    (splitOnChar s.toList '-').all fun seg =>
      !seg.isEmpty && seg.all fun c => c.isLower || c.isDigit

/-- `common.CountWords`: `strings.Fields` counts maximal nonempty runs of
non-whitespace characters. -/
def countWordsAux : List Char → Bool → Nat
  | [], _ => 0
  | c :: rest, inWord =>
      if c.isWhitespace then countWordsAux rest false
      else if inWord then countWordsAux rest true
      else countWordsAux rest true + 1

/-- `common.CountWords`. -/
def countWords (s : String) : Nat :=
  if s = "" then 0 else countWordsAux s.toList false

/-! ## Raw records

A CSV record is Go `map[string]string`; an NDJSON record is Go
`map[string]interface{}` produced by `json.Unmarshal`.  Both are modelled
as association lists with first-match lookup.  JSON values are the tagged
union `JValue`; numbers are modelled as `Int` (the decimal-printing cases
the code exercises). -/

/-- A decoded JSON value (`interface{}` after `json.Unmarshal`). -/
inductive JValue where
  | str (s : String)
  | num (n : Int)
  | bool (b : Bool)
  | arr (l : List JValue)
  | obj (l : List (String × JValue))
  | null

/-- Whether a JSON value is `null` (Go `nil` interface). -/
def JValue.isNull : JValue → Bool
  | .null => true
  | _ => false

mutual

/-- Models `fmt.Sprint` on a decoded JSON value.  Strings print as
themselves, numbers in decimal, booleans as `true`/`false`; the composite
cases follow Go of the form `[a b c]` (objects are never printed on the
code paths embedded here and get Go's `map[k:v ...]` shape without the
key sorting Go performs). -/
def jSprint : JValue → String
  | .str s => s
  | .num n => toString n
  | .bool b => if b then "true" else "false"
  | .arr l => "[" ++ " ".intercalate (jSprintList l) ++ "]"
  | .obj l => "map[" ++ " ".intercalate (jSprintObjList l) ++ "]"
  | .null => "<nil>"

def jSprintList : List JValue → List String
  | [] => []
  | v :: rest => jSprint v :: jSprintList rest

def jSprintObjList : List (String × JValue) → List String
  | [] => []
  | (k, v) :: rest => (k ++ ":" ++ jSprint v) :: jSprintObjList rest

end

/-- NDJSON record: `map[string]interface{}`. -/
abbrev JRecord := List (String × JValue)

/-- CSV record: `map[string]string` (`parsers.Record`). -/
abbrev URecord := List (String × String)

/-- Map lookup on an NDJSON record (`record[field]` with its `ok` flag). -/
def jGet (r : JRecord) (field : String) : Option JValue :=
  (r.find? fun p => p.1 = field).map Prod.snd

/-- Map lookup on a CSV record: Go `record[field]` yields `""` when the
key is absent. -/
def uGet (r : URecord) (field : String) : String :=
  ((r.find? fun p => p.1 = field).map Prod.snd).getD ""

/-- `articles.getStringField`: `fmt.Sprint` of a present non-nil field,
trimmed; `""` otherwise. -/
def getStringField (r : JRecord) (field : String) : String :=
  match jGet r field with
  | some v => if v.isNull then "" else strTrim (jSprint v)
  | none => ""

/-! ## Entity models (`users/models.go`, `articles/models.go`)

`time.Time` is modelled as `Nat`.  The article import path
(`articles.NormalizeArticleRecord` and the `processBatchArticles` upsert
column list) stores tags as one serialized JSON string column, which is
how `ArticleModel.tags` is modelled. -/

/-- `users.UserModel`. -/
structure UserModel where
  id : String
  email : String
  name : String
  role : String
  active : Bool
  createdAt : Nat
  updatedAt : Nat
deriving DecidableEq, Repr

/-- `articles.ArticleModel` (import-path representation: serialized tag
list). -/
structure ArticleModel where
  id : String
  slug : String
  title : String
  body : String
  authorID : String
  tags : String
  status : String
  publishedAt : Option Nat
  createdAt : Nat
deriving DecidableEq, Repr

/-- `articles.CommentModel`. -/
structure CommentModel where
  id : String
  articleID : String
  userID : String
  body : String
  createdAt : Nat
deriving DecidableEq, Repr

/-! ## External collaborators: time parsing and uuid/now generation -/

/-- Models the external `time.Parse(time.RFC3339, ...)` shape check: the
canonical `YYYY-MM-DDTHH:MM:SSZ` profile (the profile the repository
itself emits via `Format(time.RFC3339)` on UTC times). -/
def isRFC3339Basic (s : String) : Bool :=
  match s.toList with
  | [y1, y2, y3, y4, '-', m1, m2, '-', d1, d2, 'T',
     h1, h2, ':', n1, n2, ':', s1, s2, 'Z'] =>
      [y1, y2, y3, y4, m1, m2, d1, d2, h1, h2, n1, n2, s1, s2].all Char.isDigit
  | _ => false

/-- Deterministic encoding of an accepted timestamp string as a `Nat`
instant (digit fold); models the value side of `time.Parse`. -/
def rfc3339Encode (s : String) : Nat :=
  s.toList.foldl (fun n c => if c.isDigit then n * 10 + (c.toNat - 48) else n) 0

/-- Models external `time.Parse(time.RFC3339, s)`: `some` instant on an
accepted shape, `none` (a parse error) otherwise. -/
def rfc3339Parse (s : String) : Option Nat :=
  if isRFC3339Basic s then some (rfc3339Encode s) else none

/-- Generation state for the external `uuid.New()` and `time.Now()`
collaborators: fresh identifiers are distinct, and `now` is the current
instant. -/
structure Gen where
  counter : Nat := 0
  now : Nat := 0
deriving DecidableEq, Repr

/-- `uuid.New().String()`: a fresh identifier. -/
def freshUUID (g : Gen) : String × Gen :=
  ("uuid-" ++ toString g.counter, { g with counter := g.counter + 1 })

/-! ## Record validators

Embedded from the current validators: `users/validators.go`
(`ValidateUserRecord`, the variant without database pre-loading) and the
article/comment validators of `src/unnamed/part_006`
(`ValidateArticleRecord`, `ValidateCommentRecord`). -/

/-- `articles.StatusDraft`. -/
def statusDraft : String := "draft"

/-- `users.(*UserValidator).ValidateUserRecord`. -/
def validateUserRecord (record : URecord) (rowNum : Nat) : RecordValidationResult :=
  let r : RecordValidationResult :=
    { rowNumber := rowNum, recordID := uGet record "id", valid := true }
  let email := strTrim (uGet record "email")
  let r :=
    if email = "" then r.addError "email" "Email is required (natural key for upsert)"
    else if !validateEmail email then r.addError "email" "Invalid email format"
    else r
  let role := strTrim (uGet record "role")
  let r := if role = "" then r.addError "role" "Role is required" else r
  let active := strToLower (strTrim (uGet record "active"))
  let r :=
    if active ≠ "true" ∧ active ≠ "false" then
      r.addError "active" "Active must be \x27true\x27 or \x27false\x27"
    else r
  r

/-- `articles.(*ArticleValidator).ValidateArticleRecord`. -/
def validateArticleRecord (record : JRecord) (rowNum : Nat) : RecordValidationResult :=
  let r : RecordValidationResult := { rowNumber := rowNum, valid := true }
  let slug := getStringField record "slug"
  let r :=
    if slug = "" then r.addError "slug" "Slug is required (natural key for upsert)"
    else if !validateKebabCase slug then
      r.addError "slug" "Slug must be in kebab-case format (lowercase, hyphen-separated)"
    else r
  let r :=
    match jGet record "id" with
    | some v =>
        if v.isNull then { r with recordID := slug }
        else { r with recordID := strTrim (jSprint v) }
    | none => { r with recordID := slug }
  let authorID := getStringField record "author_id"
  let r := if authorID = "" then r.addError "author_id" "Author ID is required" else r
  let status := getStringField record "status"
  let publishedAtStr := getStringField record "published_at"
  let r :=
    if status = statusDraft ∧ publishedAtStr ≠ "" then
      r.addError "published_at" "Draft articles must not have published_at timestamp"
    else r
  r

/-- `articles.(*CommentValidator).ValidateCommentRecord`.  Go `len(body)`
is a byte count; it is modelled as the character count (concrete inputs
here are ASCII, where they coincide). -/
def validateCommentRecord (record : JRecord) (rowNum : Nat) : RecordValidationResult :=
  let r : RecordValidationResult := { rowNumber := rowNum, valid := true }
  let idRaw :=
    match jGet record "id" with
    | some v => if v.isNull then "" else jSprint v
    | none => ""
  let r :=
    match jGet record "id" with
    | some v => if v.isNull then r else { r with recordID := jSprint v }
    | none => r
  let id := strTrim idRaw
  let r := if id = "" then r.addError "id" "ID is required" else r
  let articleID := getStringField record "article_id"
  let r := if articleID = "" then r.addError "article_id" "Article ID is required" else r
  let userID := getStringField record "user_id"
  let r := if userID = "" then r.addError "user_id" "User ID is required" else r
  let body := getStringField record "body"
  let r :=
    if body.length > 3500 then
      let wordCount := countWords body
      if wordCount > 500 then
        r.addError "body"
          ("Body exceeds 500 words limit (has " ++ toString wordCount ++ " words)")
      else r
    else r
  r

/-! ## Record normalizers -/

/-- `json.Marshal` of a `[]string` tag list (no escaping arises for the
tag strings the code paths here exercise). -/
def jsonMarshalStrings (l : List String) : String :=
  "[" ++ ",".intercalate (l.map fun s => "\"" ++ s ++ "\"") ++ "]"

/-- `users.NormalizeUserRecord`. -/
def normalizeUserRecord (g : Gen) (record : URecord) : UserModel × Gen :=
  let now := g.now
  let id0 := strTrim (uGet record "id")
  let (id, g) := if id0 = "" then freshUUID g else (id0, g)
  let createdAtStr := strTrim (uGet record "created_at")
  let createdAt :=
    if createdAtStr ≠ "" then (rfc3339Parse createdAtStr).getD now else now
  let updatedAtStr := strTrim (uGet record "updated_at")
  let updatedAt :=
    if updatedAtStr ≠ "" then (rfc3339Parse updatedAtStr).getD now else now
  let active := strToLower (strTrim (uGet record "active")) = "true"
  ({ id := id,
     email := strTrim (uGet record "email"),
     name := strTrim (uGet record "name"),
     role := strTrim (uGet record "role"),
     active := active,
     createdAt := createdAt,
     updatedAt := updatedAt }, g)

/-- The tag-list coercion inside `articles.NormalizeArticleRecord`: a JSON
array yields its printed elements, a nonempty string splits on commas with
trimming, anything else yields no tags. -/
def articleTagList : Option JValue → List String
  | some (.arr l) => l.map jSprint
  | some (.str s) =>
      if s ≠ "" then (splitOnChar s.toList ',').map (fun cs => strTrim (String.mk cs))
      else []
  | _ => []

/-- `articles.NormalizeArticleRecord`. -/
def normalizeArticleRecord (g : Gen) (record : JRecord) : ArticleModel × Gen :=
  let now := g.now
  let id0 := getStringField record "id"
  let (id, g) := if id0 = "" then freshUUID g else (id0, g)
  let createdAtStr := getStringField record "created_at"
  let createdAt :=
    if createdAtStr ≠ "" then (rfc3339Parse createdAtStr).getD now else now
  let publishedAtStr := getStringField record "published_at"
  let publishedAt : Option Nat :=
    if publishedAtStr ≠ "" then rfc3339Parse publishedAtStr else none
  let tags :=
    match jGet record "tags" with
    | some v => if v.isNull then [] else articleTagList (some v)
    | none => []
  let tagsJSON := if tags ≠ [] then jsonMarshalStrings tags else ""
  ({ id := id,
     slug := getStringField record "slug",
     title := getStringField record "title",
     body := getStringField record "body",
     authorID := getStringField record "author_id",
     tags := tagsJSON,
     status := getStringField record "status",
     publishedAt := publishedAt,
     createdAt := createdAt }, g)

/-- `articles.NormalizeCommentRecord` (no identifier generation: comments
without an id are rejected upstream). -/
def normalizeCommentRecord (g : Gen) (record : JRecord) : CommentModel :=
  let now := g.now
  let createdAtStr := getStringField record "created_at"
  let createdAt :=
    if createdAtStr ≠ "" then (rfc3339Parse createdAtStr).getD now else now
  { id := getStringField record "id",
    articleID := getStringField record "article_id",
    userID := getStringField record "user_id",
    body := getStringField record "body",
    createdAt := createdAt }

/-! ## Job records and the relational store (`common/job_models.go`)

The job status strings are the constants `JobStatusPending`,
`JobStatusProcessing`, `JobStatusCompleted`, `JobStatusFailed`; their
definition site (`common/database.go`) is not among the provided sources,
but `common/job_models.go` documents the values as
`pending, processing, completed, failed`, which §4.5 of the spec
confirms.  A job's serialized `Errors` JSON column is modelled as a list
of `JobError` (`""` corresponds to `[]`); a fatal entry models the
synthetic `[{"error": ...}]` payload. -/

/-- One entry of a job's serialized error list. -/
inductive JobError where
  | record (r : RecordValidationResult)
  | fatal (msg : String)
deriving DecidableEq, Repr

/-- `common.ImportJob`. -/
structure ImportJob where
  id : String
  idempotencyKey : String
  resourceType : String
  status : String
  filePath : String := ""
  totalRecords : Int := 0
  processedCount : Int := 0
  successCount : Int := 0
  failCount : Int := 0
  errors : List JobError := []
  createdAt : Nat := 0
  updatedAt : Nat := 0
  completedAt : Option Nat := none
deriving DecidableEq, Repr

/-- `common.ExportJob`. -/
structure ExportJob where
  id : String
  idempotencyKey : String
  resourceType : String
  format : String
  filters : String := ""
  status : String
  filePath : String := ""
  downloadURL : String := ""
  totalRecords : Int := 0
  createdAt : Nat := 0
  completedAt : Option Nat := none
deriving DecidableEq, Repr

/-- The relational store plus the managed upload/export directories.
Tables are lists in storage order; files record the side effects of the
HTTP handlers and background tasks. -/
structure DB where
  users : List UserModel := []
  articles : List ArticleModel := []
  comments : List CommentModel := []
  importJobs : List ImportJob := []
  exportJobs : List ExportJob := []
  uploadedFiles : List String := []
  exportFiles : List (String × List String) := []
deriving DecidableEq, Repr

/-- `db.Where("id = ?", jobID).First(&job)` over import jobs. -/
def findImportJob (db : DB) (jobId : String) : Option ImportJob :=
  db.importJobs.find? fun j => j.id = jobId

/-- `db.Where("idempotency_key = ?", key).First(&job)` over import jobs. -/
def findImportJobByKey (db : DB) (key : String) : Option ImportJob :=
  db.importJobs.find? fun j => j.idempotencyKey = key

/-- `db.Where("idempotency_key = ?", key).First(&job)` over export jobs. -/
def findExportJobByKey (db : DB) (key : String) : Option ExportJob :=
  db.exportJobs.find? fun j => j.idempotencyKey = key

/-- `db.Where("id = ?", jobID).First(&job)` over export jobs. -/
def findExportJob (db : DB) (jobId : String) : Option ExportJob :=
  db.exportJobs.find? fun j => j.id = jobId

/-- `db.Save(&job)` on an import job: update by primary key. -/
def saveImportJob (db : DB) (job : ImportJob) : DB :=
  { db with importJobs := db.importJobs.map fun j => if j.id = job.id then job else j }

/-- `db.Save(&job)` on an export job: update by primary key. -/
def saveExportJob (db : DB) (job : ExportJob) : DB :=
  { db with exportJobs := db.exportJobs.map fun j => if j.id = job.id then job else j }

/-! ## Batch upsert engine

`db.Clauses(clause.OnConflict{Columns: ..., DoUpdates:
clause.AssignmentColumns(...)}).Create(&batch)`: rows are written in
batch order; a row whose conflict key is absent is inserted, a
conflicting row overwrites exactly the assignment columns of the stored
row (SQLite processes a multi-row upsert row by row, so a later batch row
may conflict with an earlier one).  Conflict keys are the unique columns
`email` (users), `slug` (articles), `id` (comments); SQLite compares
`TEXT` columns byte-wise (`BINARY` collation), so key comparison is exact
and case-sensitive.  The tables carry unique indexes, so at most one
stored row matches a key; the `map` form below coincides with the
single-row update on every reachable table. -/

/-- The `DoUpdates` column set for users: `name, role, active,
updated_at`. -/
def applyUserConflictUpdate (old v : UserModel) : UserModel :=
  { old with name := v.name, role := v.role, active := v.active, updatedAt := v.updatedAt }

/-- Upsert a single user row (conflict key `email`). -/
def upsertOneUser (t : List UserModel) (v : UserModel) : List UserModel :=
  if t.any fun r => r.email = v.email then
    t.map fun r => if r.email = v.email then applyUserConflictUpdate r v else r
  else t ++ [v]

/-- The batched user upsert of `processBatchUsers`. -/
def upsertUsers (t : List UserModel) (vs : List UserModel) : List UserModel :=
  vs.foldl upsertOneUser t

/-- The `DoUpdates` column set for articles: `title, body, author_id,
tags, status, published_at`. -/
def applyArticleConflictUpdate (old v : ArticleModel) : ArticleModel :=
  { old with title := v.title, body := v.body, authorID := v.authorID,
             tags := v.tags, status := v.status, publishedAt := v.publishedAt }

/-- Upsert a single article row (conflict key `slug`). -/
def upsertOneArticle (t : List ArticleModel) (v : ArticleModel) : List ArticleModel :=
  if t.any fun r => r.slug = v.slug then
    t.map fun r => if r.slug = v.slug then applyArticleConflictUpdate r v else r
  else t ++ [v]

/-- The batched article upsert of `processBatchArticles`. -/
def upsertArticles (t : List ArticleModel) (vs : List ArticleModel) : List ArticleModel :=
  vs.foldl upsertOneArticle t

/-- The `DoUpdates` column set for comments: `article_id, user_id, body,
created_at`. -/
def applyCommentConflictUpdate (old v : CommentModel) : CommentModel :=
  { old with articleID := v.articleID, userID := v.userID,
             body := v.body, createdAt := v.createdAt }

/-- Upsert a single comment row (conflict key `id`). -/
def upsertOneComment (t : List CommentModel) (v : CommentModel) : List CommentModel :=
  if t.any fun r => r.id = v.id then
    t.map fun r => if r.id = v.id then applyCommentConflictUpdate r v else r
  else t ++ [v]

/-- The batched comment upsert of `processBatchComments`. -/
def upsertComments (t : List CommentModel) (vs : List CommentModel) : List CommentModel :=
  vs.foldl upsertOneComment t

/-! ## Batch processors (`imports/routers.go`) -/

/-- `imports.BatchSize`. -/
def batchSize : Nat := 2000

/-- `imports.ProgressUpdateFrequency`. -/
def progressUpdateFrequency : Nat := 1

/-- The per-record selection loop of `processBatchUsers`: validate each
record, re-check the natural key, and split the batch into normalized
valid users and failed results. -/
def selectValidUsers (g : Gen) (batch : List URecord) (row : Nat) :
    List UserModel × List RecordValidationResult × Gen :=
  match batch with
  | [] => ([], [], g)
  | record :: rest =>
      let result := validateUserRecord record row
      if result.valid then
        let email := strTrim (uGet record "email")
        if email = "" then
          let result := { result with valid := false }
          let result := result.addError "email" "Email is required (natural key for upsert)"
          let (vs, fs, g) := selectValidUsers g rest (row + 1)
          (vs, result :: fs, g)
        else
          let (u, g) := normalizeUserRecord g record
          let (vs, fs, g) := selectValidUsers g rest (row + 1)
          (u :: vs, fs, g)
      else
        let (vs, fs, g) := selectValidUsers g rest (row + 1)
        (vs, result :: fs, g)

/-- `imports.processBatchUsers`. -/
def processBatchUsers (db : DB) (g : Gen) (batch : List URecord) (startRow : Nat) :
    DB × Gen × Int × List RecordValidationResult :=
  let (validUsers, failedResults, g) := selectValidUsers g batch startRow
  let db :=
    if validUsers ≠ [] then { db with users := upsertUsers db.users validUsers } else db
  (db, g, (batch.length : Int), failedResults)

/-- The per-record selection loop of `processBatchArticles`. -/
def selectValidArticles (g : Gen) (batch : List JRecord) (row : Nat) :
    List ArticleModel × List RecordValidationResult × Gen :=
  match batch with
  | [] => ([], [], g)
  | record :: rest =>
      let result := validateArticleRecord record row
      if result.valid then
        let slug := getStringField record "slug"
        if slug = "" then
          let result := { result with valid := false }
          let result := result.addError "slug" "Slug is required (natural key for upsert)"
          let (vs, fs, g) := selectValidArticles g rest (row + 1)
          (vs, result :: fs, g)
        else
          let (a, g) := normalizeArticleRecord g record
          let (vs, fs, g) := selectValidArticles g rest (row + 1)
          (a :: vs, fs, g)
      else
        let (vs, fs, g) := selectValidArticles g rest (row + 1)
        (vs, result :: fs, g)

/-- `imports.processBatchArticles`. -/
def processBatchArticles (db : DB) (g : Gen) (batch : List JRecord) (startRow : Nat) :
    DB × Gen × Int × List RecordValidationResult :=
  let (validArticles, failedResults, g) := selectValidArticles g batch startRow
  let db :=
    if validArticles ≠ [] then
      { db with articles := upsertArticles db.articles validArticles }
    else db
  (db, g, (batch.length : Int), failedResults)

/-- The per-record selection loop of `processBatchComments`. -/
def selectValidComments (g : Gen) (batch : List JRecord) (row : Nat) :
    List CommentModel × List RecordValidationResult × Gen :=
  match batch with
  | [] => ([], [], g)
  | record :: rest =>
      let result := validateCommentRecord record row
      if result.valid then
        let origID := getStringField record "id"
        if origID = "" then
          let result := { result with valid := false }
          let result := result.addError "id" "ID is required for comments (no natural key available)"
          let (vs, fs, g) := selectValidComments g rest (row + 1)
          (vs, result :: fs, g)
        else
          let c := normalizeCommentRecord g record
          let (vs, fs, g) := selectValidComments g rest (row + 1)
          (c :: vs, fs, g)
      else
        let (vs, fs, g) := selectValidComments g rest (row + 1)
        (vs, result :: fs, g)

/-- `imports.processBatchComments`. -/
def processBatchComments (db : DB) (g : Gen) (batch : List JRecord) (startRow : Nat) :
    DB × Gen × Int × List RecordValidationResult :=
  let (validComments, failedResults, g) := selectValidComments g batch startRow
  let db :=
    if validComments ≠ [] then
      { db with comments := upsertComments db.comments validComments }
    else db
  (db, g, (batch.length : Int), failedResults)

/-! ## The import processing loop

`processUsersImport`, `processArticlesImport` and `processCommentsImport`
share one loop body verbatim (accumulate a batch, count the record, flush
at `BatchSize`, flush the remainder, store the collected errors); it is
embedded once, parameterized by the record type and the batch processor.
The parser's error channel is drained and discarded by the Go code
(`for range errors`), so only the record stream appears here.  All three
Go functions end in `return nil`: the loop cannot fail. -/

/-- Loop state of the shared import loop. -/
structure ImportLoopState (ρ : Type) where
  job : ImportJob
  db : DB
  g : Gen
  batch : List ρ
  allErrors : List RecordValidationResult
  rowNum : Nat
  batchesProcessed : Nat

/-- One iteration of `for record := range records`. -/
def importLoopStep
    (pb : DB → Gen → List ρ → Nat → DB × Gen × Int × List RecordValidationResult)
    (st : ImportLoopState ρ) (record : ρ) : ImportLoopState ρ :=
  let batch := st.batch ++ [record]
  let job := { st.job with totalRecords := st.job.totalRecords + 1 }
  if batch.length ≥ batchSize then
    let (db, g, processedCount, failedResults) := pb st.db st.g batch st.rowNum
    let job :=
      { job with
        processedCount := job.processedCount + processedCount,
        successCount := job.successCount + (processedCount - failedResults.length),
        failCount := job.failCount + failedResults.length }
    let allErrors := st.allErrors ++ failedResults
    let rowNum := st.rowNum + batch.length
    let batchesProcessed := st.batchesProcessed + 1
    let (job, db) :=
      if batchesProcessed % progressUpdateFrequency = 0 then
        let job := { job with updatedAt := g.now }
        (job, saveImportJob db job)
      else (job, db)
    { job := job, db := db, g := g, batch := [], allErrors := allErrors,
      rowNum := rowNum, batchesProcessed := batchesProcessed }
  else
    { st with job := job, batch := batch }

/-- The tail of the loop: flush the remaining partial batch and store the
collected errors on the job. -/
def importLoopFinish
    (pb : DB → Gen → List ρ → Nat → DB × Gen × Int × List RecordValidationResult)
    (st : ImportLoopState ρ) : ImportJob × DB × Gen :=
  let (job, db, g, allErrors) :=
    if st.batch.length > 0 then
      let (db, g, processedCount, failedResults) := pb st.db st.g st.batch st.rowNum
      let job :=
        { st.job with
          processedCount := st.job.processedCount + processedCount,
          successCount := st.job.successCount + (processedCount - failedResults.length),
          failCount := st.job.failCount + failedResults.length }
      (job, db, g, st.allErrors ++ failedResults)
    else (st.job, st.db, st.g, st.allErrors)
  let job :=
    if allErrors ≠ [] then { job with errors := allErrors.map JobError.record } else job
  (job, db, g)

/-- The shared loop of the three `processXImport` functions. -/
def runImportLoop
    (pb : DB → Gen → List ρ → Nat → DB × Gen × Int × List RecordValidationResult)
    (job : ImportJob) (db : DB) (g : Gen) (records : List ρ) :
    ImportJob × DB × Gen :=
  importLoopFinish pb
    (records.foldl (importLoopStep pb)
      { job := job, db := db, g := g, batch := [], allErrors := [],
        rowNum := 1, batchesProcessed := 0 })

/-- `imports.processUsersImport` (always returns a nil error). -/
def processUsersImport (job : ImportJob) (db : DB) (g : Gen)
    (records : List URecord) : ImportJob × DB × Gen :=
  runImportLoop processBatchUsers job db g records

/-- `imports.processArticlesImport` (always returns a nil error). -/
def processArticlesImport (job : ImportJob) (db : DB) (g : Gen)
    (records : List JRecord) : ImportJob × DB × Gen :=
  runImportLoop processBatchArticles job db g records

/-- `imports.processCommentsImport` (always returns a nil error). -/
def processCommentsImport (job : ImportJob) (db : DB) (g : Gen)
    (records : List JRecord) : ImportJob × DB × Gen :=
  runImportLoop processBatchComments job db g records

/-! ## Orphan reconciliation (`cleanupOrphanedRecords`) -/

/-- `imports.cleanupOrphanedRecords`: returns the orphan count, the per-row
validation outcomes, and the store after the deletions.  The orphan scans
are the raw `LEFT JOIN ... WHERE ... IS NULL` queries; deletion is by
primary key (ids are unique, so it removes exactly the scanned rows); the
per-key `EXISTS` re-checks for comments run against the untouched
`articles`/`users` tables. -/
def cleanupOrphanedRecords (db : DB) (resourceType : String) :
    Nat × List RecordValidationResult × DB :=
  if resourceType = "articles" then
    let orphaned := db.articles.filter fun a => !(db.users.any fun u => u.id = a.authorID)
    let db := { db with
      articles := db.articles.filter fun a => db.users.any fun u => u.id = a.authorID }
    let failedResults := orphaned.map fun a =>
      RecordValidationResult.addError { recordID := a.id, valid := false }
        "author_id"
        ("Foreign key violation: author_id \x27" ++ a.authorID ++ "\x27 does not exist")
    (orphaned.length, failedResults, db)
  else if resourceType = "comments" then
    let orphaned := db.comments.filter fun c =>
      !(db.articles.any fun a => a.id = c.articleID) || !(db.users.any fun u => u.id = c.userID)
    let db' := { db with
      comments := db.comments.filter fun c =>
        (db.articles.any fun a => a.id = c.articleID) && (db.users.any fun u => u.id = c.userID) }
    let failedResults := orphaned.map fun c =>
      let result : RecordValidationResult := { recordID := c.id, valid := false }
      let articleExists := db.articles.any fun a => a.id = c.articleID
      let userExists := db.users.any fun u => u.id = c.userID
      let result :=
        if !articleExists then
          result.addError "article_id"
            ("Foreign key violation: article_id \x27" ++ c.articleID ++ "\x27 does not exist")
        else result
      let result :=
        if !userExists then
          result.addError "user_id"
            ("Foreign key violation: user_id \x27" ++ c.userID ++ "\x27 does not exist")
        else result
      result
    (orphaned.length, failedResults, db')
  else (0, [], db)

/-- The count/error adjustment `ProcessImportJob` applies after a
successful cleanup pass (`SuccessCount -= orphanedCount; FailCount +=
orphanedCount`; append the orphan outcomes to the job's error list). -/
def applyOrphanAdjustment (job : ImportJob) (orphanedCount : Nat)
    (orphanedErrors : List RecordValidationResult) : ImportJob :=
  if orphanedCount > 0 then
    let job :=
      { job with successCount := job.successCount - orphanedCount,
                 failCount := job.failCount + orphanedCount }
    if orphanedErrors ≠ [] then
      { job with errors := job.errors ++ orphanedErrors.map JobError.record }
    else job
  else job

/-! ## `imports.ProcessImportJob`

The opened file is the parser input; `fileOk` models whether `os.Open`
succeeds, and the parsed record stream is passed per format
(`ucsv` for the CSV view, `jrecords` for the NDJSON view — the resource
type selects which one the Go code builds from the file). -/

/-- The body of `ProcessImportJob` after the job fetch; returns the final
job record together with the store (whose last update is the final
`db.Save(&job)`). -/
def runImportTask (job : ImportJob) (db : DB) (g : Gen) (fileOk : Bool)
    (ucsv : List URecord) (jrecords : List JRecord) : ImportJob × DB :=
  let job := { job with status := "processing", updatedAt := g.now }
  let db := saveImportJob db job
  if !fileOk then
    let job :=
      { job with status := "failed", errors := [.fatal "Failed to open file"],
                 completedAt := some g.now, updatedAt := g.now }
    (job, saveImportJob db job)
  else
    let (knownType, job, db, g) :=
      if job.resourceType = "users" then
        let (job, db, g) := processUsersImport job db g ucsv
        (true, job, db, g)
      else if job.resourceType = "articles" then
        let (job, db, g) := processArticlesImport job db g jrecords
        (true, job, db, g)
      else if job.resourceType = "comments" then
        let (job, db, g) := processCommentsImport job db g jrecords
        (true, job, db, g)
      else (false, job, db, g)
    let (job, db) :=
      if knownType ∧ (job.resourceType = "articles" ∨ job.resourceType = "comments") then
        let (orphanedCount, orphanedErrors, db) := cleanupOrphanedRecords db job.resourceType
        (applyOrphanAdjustment job orphanedCount orphanedErrors, db)
      else (job, db)
    let job := { job with completedAt := some g.now, updatedAt := g.now }
    let job :=
      if !knownType then
        { job with
          status := "failed",
          errors :=
            if job.errors = [] then [.fatal ("unknown resource type: " ++ job.resourceType)]
            else job.errors }
      else { job with status := "completed" }
    (job, saveImportJob db job)

/-- `imports.ProcessImportJob`. -/
def processImportJob (db : DB) (jobId : String) (g : Gen) (fileOk : Bool)
    (ucsv : List URecord) (jrecords : List JRecord) : DB :=
  match findImportJob db jobId with
  | none => db
  | some job => (runImportTask job db g fileOk ucsv jrecords).2

/-! ## HTTP job-creation handlers

`imports.CreateImport` and `exports.CreateExport`, embedded with the
request-marshaling boundary as data: the multipart/JSON body alternatives
become an inductive, and the external filesystem/network outcomes
(`os.Create`+`io.Copy`, `downloadFile`) are oracle booleans.  Responses
carry the data the JSON bodies carry. -/

/-- `String` prefix of the first `n` characters (`uuid[:8]`-style
slicing). -/
def strTake (s : String) (n : Nat) : String :=
  String.mk (s.toList.take n)

/-- `filepath.Ext`: the suffix beginning at the final dot, `""` when
there is none (the embedded call sites pass bare file names, so the
path-separator subtlety of the Go function does not arise). -/
def extOf (s : String) : String :=
  if s.toList.contains '.' then
    String.mk ('.' :: (s.toList.reverse.takeWhile fun c => c ≠ '.').reverse)
  else ""

/-- The body of an import-creation request. -/
inductive ImportReqBody where
  | multipart (fileProvided : Bool) (filename : String) (resourceType : String) (saveOk : Bool)
  | jsonBody (resourceType : String) (format : String) (fileURL : String) (downloadOk : Bool)
deriving DecidableEq, Repr

/-- An import-creation request (`Idempotency-Key` header plus body). -/
structure ImportRequest where
  idempotencyKey : String
  body : ImportReqBody
deriving DecidableEq, Repr

/-- A job-creation handler response (status code plus the JSON payload
fields the handlers emit). -/
inductive HandlerResult where
  | badRequest (msg : String)
  | okExisting (jobId : String) (status : String) (createdAt : Nat)
  | accepted (jobId : String) (status : String) (createdAt : Nat)
  | serverError (msg : String)
deriving DecidableEq, Repr

/-- The resource kinds accepted by the handlers. -/
def isKnownResource (s : String) : Bool :=
  s = "users" || s = "articles" || s = "comments"

/-- The tail of `CreateImport` after the file path is resolved: final
resource-type validation, job row creation, `202` response (the
background `go ProcessImportJob` is the separately modelled
`processImportJob`). -/
def finishCreateImport (db : DB) (g : Gen) (resourceType filePath idemKey : String) :
    HandlerResult × DB × Gen :=
  if !isKnownResource resourceType then
    (.badRequest "resource_type must be users, articles, or comments", db, g)
  else
    let (jid, g) := freshUUID g
    let job : ImportJob :=
      { id := jid, idempotencyKey := idemKey, resourceType := resourceType,
        status := "pending", filePath := filePath,
        createdAt := g.now, updatedAt := g.now }
    let db := { db with importJobs := db.importJobs ++ [job] }
    (.accepted job.id job.status job.createdAt, db, g)

/-- `imports.CreateImport`. -/
def createImport (db : DB) (g : Gen) (req : ImportRequest) : HandlerResult × DB × Gen :=
  if req.idempotencyKey = "" then
    (.badRequest "Idempotency-Key header is required", db, g)
  else
    match findImportJobByKey db req.idempotencyKey with
    | some existingJob =>
        (.okExisting existingJob.id existingJob.status existingJob.createdAt, db, g)
    | none =>
        match req.body with
        | .multipart fileProvided filename resourceType saveOk =>
            if !fileProvided then (.badRequest "File is required", db, g)
            else if resourceType = "" then (.badRequest "resource_type is required", db, g)
            else
              let ext := extOf filename
              if ext = ".csv" ∨ ext = ".ndjson" ∨ ext = ".json" then
                let (u, g) := freshUUID g
                let fileName := toString g.now ++ "_" ++ strTake u 8 ++ ext
                if !saveOk then (.serverError "Failed to save file", db, g)
                else
                  let db := { db with uploadedFiles := db.uploadedFiles ++ [fileName] }
                  finishCreateImport db g resourceType fileName req.idempotencyKey
              else (.badRequest "File must be .csv or .ndjson", db, g)
        | .jsonBody resourceType format fileURL downloadOk =>
            if !(isKnownResource resourceType && (format = "csv" || format = "ndjson")) then
              (.badRequest "binding error", db, g)
            else if fileURL = "" then (.badRequest "file_url is required", db, g)
            else
              let ext := if format = "csv" then ".csv" else ".ndjson"
              let (u, g) := freshUUID g
              let fileName := toString g.now ++ "_" ++ strTake u 8 ++ ext
              if !downloadOk then (.badRequest "Failed to download file", db, g)
              else
                let db := { db with uploadedFiles := db.uploadedFiles ++ [fileName] }
                finishCreateImport db g resourceType fileName req.idempotencyKey

/-- An export-creation request (`exports.CreateExportRequest`). -/
structure ExportRequest where
  idempotencyKey : String
  resourceType : String
  format : String
  fields : List String := []
  filters : List (String × String) := []
deriving DecidableEq, Repr

/-- `json.Marshal` of the caller's filter map (`map[string]string`),
modelled compactly (Go additionally sorts map keys; no embedded claim
reads this column back). -/
def filtersEncode (filters : List (String × String)) : String :=
  "\x7b" ++ ",".intercalate (filters.map fun p => "\"" ++ p.1 ++ "\":\"" ++ p.2 ++ "\"") ++ "\x7d"

/-- `exports.CreateExport`. -/
def createExport (db : DB) (g : Gen) (req : ExportRequest) : HandlerResult × DB × Gen :=
  if !(req.idempotencyKey ≠ "" && isKnownResource req.resourceType
        && (req.format = "csv" || req.format = "ndjson")) then
    (.badRequest "binding error", db, g)
  else
    match findExportJobByKey db req.idempotencyKey with
    | some existingJob =>
        (.okExisting existingJob.id existingJob.status existingJob.createdAt, db, g)
    | none =>
        let filtersJSON := filtersEncode req.filters
        let (jid, g) := freshUUID g
        let job : ExportJob :=
          { id := jid, idempotencyKey := req.idempotencyKey,
            resourceType := req.resourceType, format := req.format,
            filters := filtersJSON, status := "pending", createdAt := g.now }
        let db := { db with exportJobs := db.exportJobs ++ [job] }
        (.accepted job.id job.status job.createdAt, db, g)

/-! ## Filtered export engine (`exports/routers.go`)

Row serialization: `csv.Writer` rows become comma-joined fields (the
quoting rules of the external writer are not modelled; no embedded claim
reads row contents), NDJSON rows become compact JSON objects, and
`Format(time.RFC3339)` becomes decimal printing of the modelled instant.
A `Find` returning an error is the oracle `qerr` at the page's offset;
the CSV and NDJSON branches of each Go exporter share their pagination
loop verbatim, which is embedded once with the per-format serializer. -/

/-- Join a `csv.Writer` row. -/
def csvJoin (fields : List String) : String :=
  ",".intercalate fields

/-- Compact JSON object line (`json.Marshal` of the per-row map; Go
additionally sorts the map keys). -/
def jsonObjLine (kvs : List (String × String)) : String :=
  "\x7b" ++ ",".intercalate (kvs.map fun p => "\"" ++ p.1 ++ "\":" ++ p.2) ++ "\x7d"

/-- JSON string literal (no escaping arises for embedded inputs). -/
def jsonStr (s : String) : String := "\"" ++ s ++ "\""

/-- `Format(time.RFC3339)` on a modelled instant. -/
def fmtTime (t : Nat) : String := toString t

/-- `fmt.Sprintf("%t", b)`. -/
def fmtBool (b : Bool) : String := if b then "true" else "false"

/-- The local `batchSize` of the export loops. -/
def exportBatchSize : Nat := 1000

/-- The shared pagination loop of the exporters: fetch
`Limit(batchSize).Offset(offset)` pages of the filtered table, stop on a
query error or a short/empty page, serialize each fetched row.  The
mid-loop `total_records` progress writes are overwritten by the final
`db.Save` and are not modelled as separate store states. -/
def exportPageLoop (ser : α → String) (qerr : Nat → Bool)
    (rest : List α) (offset : Nat) (lines : List String) (total : Int) :
    List String × Int :=
  if qerr offset then (lines, total)
  else
    if (rest.take exportBatchSize).length = 0 then (lines, total)
    else
      let lines2 := lines ++ (rest.take exportBatchSize).map ser
      let total2 := total + (rest.take exportBatchSize).length
      if (rest.take exportBatchSize).length < exportBatchSize then (lines2, total2)
      else
        exportPageLoop ser qerr (rest.drop exportBatchSize) (offset + exportBatchSize)
          lines2 total2
termination_by rest.length
decreasing_by
  simp only [List.length_drop, List.length_take] at *
  simp only [exportBatchSize] at *
  omega

/-- `filters[k]` with its `ok` flag. -/
def filterGet (filters : List (String × String)) (k : String) : Option String :=
  (filters.find? fun p => p.1 = k).map Prod.snd

/-- The user-page `Where` clauses of `exportUsers`: equality on `role`,
and `active = (value == "true")`. -/
def userFilterPred (filters : List (String × String)) (u : UserModel) : Bool :=
  (match filterGet filters "role" with
   | some role => u.role = role
   | none => true) &&
  (match filterGet filters "active" with
   | some active => u.active = (active = "true")
   | none => true)

/-- The article-page `Where` clauses: equality on `status` and
`author_id`. -/
def articleFilterPred (filters : List (String × String)) (a : ArticleModel) : Bool :=
  (match filterGet filters "status" with
   | some status => a.status = status
   | none => true) &&
  (match filterGet filters "author_id" with
   | some authorID => a.authorID = authorID
   | none => true)

/-- The comment-page `Where` clauses: equality on `article_id` and
`user_id`. -/
def commentFilterPred (filters : List (String × String)) (c : CommentModel) : Bool :=
  (match filterGet filters "article_id" with
   | some articleID => c.articleID = articleID
   | none => true) &&
  (match filterGet filters "user_id" with
   | some userID => c.userID = userID
   | none => true)

/-- CSV serialization of a user row. -/
def userToCSVRow (u : UserModel) : String :=
  csvJoin [u.id, u.email, u.name, u.role, fmtBool u.active,
           fmtTime u.createdAt, fmtTime u.updatedAt]

/-- NDJSON serialization of a user row. -/
def userToNDJSONRow (u : UserModel) : String :=
  jsonObjLine [("id", jsonStr u.id), ("email", jsonStr u.email),
               ("name", jsonStr u.name), ("role", jsonStr u.role),
               ("active", fmtBool u.active),
               ("created_at", jsonStr (fmtTime u.createdAt)),
               ("updated_at", jsonStr (fmtTime u.updatedAt))]

/-- CSV serialization of an article row (tags in their stored serialized
form; the repository carries both tag representations and no claim reads
this column). -/
def articleToCSVRow (a : ArticleModel) : String :=
  csvJoin [a.id, a.slug, a.title, a.body, a.authorID, a.tags, a.status,
           (match a.publishedAt with | some t => fmtTime t | none => ""),
           fmtTime a.createdAt]

/-- NDJSON serialization of an article row (`published_at` only when
present, as in the Go code). -/
def articleToNDJSONRow (a : ArticleModel) : String :=
  jsonObjLine
    ([("id", jsonStr a.id), ("slug", jsonStr a.slug), ("title", jsonStr a.title),
      ("body", jsonStr a.body), ("author_id", jsonStr a.authorID),
      ("tags", jsonStr a.tags), ("status", jsonStr a.status),
      ("created_at", jsonStr (fmtTime a.createdAt))] ++
     (match a.publishedAt with
      | some t => [("published_at", jsonStr (fmtTime t))]
      | none => []))

/-- CSV serialization of a comment row. -/
def commentToCSVRow (c : CommentModel) : String :=
  csvJoin [c.id, c.articleID, c.userID, c.body, fmtTime c.createdAt]

/-- NDJSON serialization of a comment row. -/
def commentToNDJSONRow (c : CommentModel) : String :=
  jsonObjLine [("id", jsonStr c.id), ("article_id", jsonStr c.articleID),
               ("user_id", jsonStr c.userID), ("body", jsonStr c.body),
               ("created_at", jsonStr (fmtTime c.createdAt))]

/-- `exports.exportUsers`: filtered pagination into the output file; ends
in `return nil` — the error component is literally `none`.  The unused
`fields` parameter mirrors the Go signature. -/
def exportUsers (qerr : Nat → Bool) (db : DB) (format : String)
    (fields : List String) (filters : List (String × String)) (job : ExportJob) :
    List String × ExportJob × Option String :=
  let filtered := db.users.filter (userFilterPred filters)
  let (lines, total) :=
    if format = "csv" then
      exportPageLoop userToCSVRow qerr filtered 0 [csvJoin ["id", "email", "name",
        "role", "active", "created_at", "updated_at"]] job.totalRecords
    else
      exportPageLoop userToNDJSONRow qerr filtered 0 [] job.totalRecords
  (lines, { job with totalRecords := total }, none)

/-- `exports.exportArticles`; ends in `return nil`. -/
def exportArticles (qerr : Nat → Bool) (db : DB) (format : String)
    (fields : List String) (filters : List (String × String)) (job : ExportJob) :
    List String × ExportJob × Option String :=
  let filtered := db.articles.filter (articleFilterPred filters)
  let (lines, total) :=
    if format = "csv" then
      exportPageLoop articleToCSVRow qerr filtered 0 [csvJoin ["id", "slug", "title",
        "body", "author_id", "tags", "status", "published_at", "created_at"]]
        job.totalRecords
    else
      exportPageLoop articleToNDJSONRow qerr filtered 0 [] job.totalRecords
  (lines, { job with totalRecords := total }, none)

/-- `exports.exportComments`; ends in `return nil`. -/
def exportComments (qerr : Nat → Bool) (db : DB) (format : String)
    (fields : List String) (filters : List (String × String)) (job : ExportJob) :
    List String × ExportJob × Option String :=
  let filtered := db.comments.filter (commentFilterPred filters)
  let (lines, total) :=
    if format = "csv" then
      exportPageLoop commentToCSVRow qerr filtered 0 [csvJoin ["id", "article_id",
        "user_id", "body", "created_at"]] job.totalRecords
    else
      exportPageLoop commentToNDJSONRow qerr filtered 0 [] job.totalRecords
  (lines, { job with totalRecords := total }, none)

/-- The body of `exports.ProcessExportJob` after the job fetch: mark
processing, create the output file (`createOk` models `os.Create`),
dispatch by resource kind (the Go `switch` has no default: an unknown
kind runs no exporter and leaves the error nil), then finalize.  Returns
the final job record and the store after the final `db.Save`. -/
def runExportTask (job : ExportJob) (db : DB) (g : Gen) (fields : List String)
    (filters : List (String × String)) (createOk : Bool) (qerr : Nat → Bool) :
    ExportJob × DB :=
  let job := { job with status := "processing" }
  let db := saveExportJob db job
  let filename :=
    job.resourceType ++ "_" ++ strTake job.id 8 ++ "_" ++ toString g.now ++ "." ++ job.format
  if !createOk then
    let job := { job with status := "failed", completedAt := some g.now }
    (job, saveExportJob db job)
  else
    let (lines, job, exportErr) :=
      if job.resourceType = "users" then exportUsers qerr db job.format fields filters job
      else if job.resourceType = "articles" then
        exportArticles qerr db job.format fields filters job
      else if job.resourceType = "comments" then
        exportComments qerr db job.format fields filters job
      else ([], job, none)
    let db := { db with exportFiles := db.exportFiles ++ [(filename, lines)] }
    let job :=
      match exportErr with
      | some _ => { job with status := "failed" }
      | none => { job with status := "completed", downloadURL := "/exports/" ++ filename }
    let job := { job with completedAt := some g.now }
    (job, saveExportJob db job)

/-- `exports.ProcessExportJob`. -/
def processExportJob (db : DB) (jobId : String) (fields : List String)
    (filters : List (String × String)) (g : Gen) (createOk : Bool)
    (qerr : Nat → Bool) : DB :=
  match findExportJob db jobId with
  | none => db
  | some job => (runExportTask job db g fields filters createOk qerr).2

/-! ## Stream parsers (`parsers` package)

`ParseNDJSON` scans the byte stream line by line through a
`bufio.Scanner` whose buffer is capped at `maxCapacity = 1 MiB`; the
input is modelled as the list of lines, with the scanner's
permanent-failure semantics embedded: once a line exceeds the buffer the
scanner returns false forever, the loop exits, and `scanner.Err()`
contributes a single `ErrTooLong`.  Byte length of an ASCII line is its
character count.  `json.Unmarshal` is an external collaborator passed as
the `decode` parameter; `jsonDecodeModel` below instantiates it for
concrete inputs.

`ParseCSV` drives the external `encoding/csv.Reader`; its successive
`Read()` outcomes (a row, or a recoverable parse error after which the
reader continues on the next line) are the input list.  The header read
names the positional values; short rows pad missing trailing fields with
`""`; long rows keep only header-named positions. -/

/-- A recoverable NDJSON parse error, as surfaced on the error channel. -/
inductive NDJSONError where
  | invalidJSON (line : String)
  | lineTooLong
deriving DecidableEq, Repr

/-- `maxCapacity` of the NDJSON scanner (1 MiB). -/
def maxLineCapacity : Nat := 1048576

/-- `parsers.ParseNDJSON`, with the external JSON decoder as a
parameter.  Returns the record sequence and the error sequence. -/
def parseNDJSONWith (decode : String → Option JRecord) :
    List String → List JRecord × List NDJSONError
  | [] => ([], [])
  | line :: rest =>
      if line.length > maxLineCapacity then ([], [.lineTooLong])
      else if line = "" then parseNDJSONWith decode rest
      else
        match decode line with
        | none =>
            let (rs, es) := parseNDJSONWith decode rest
            (rs, .invalidJSON line :: es)
        | some record =>
            let (rs, es) := parseNDJSONWith decode rest
            (record :: rs, es)

/-- Left brace character (written via its code point, as everywhere in
this file). -/
def lbrace : Char := Char.ofNat 123

/-- Right brace character. -/
def rbrace : Char := Char.ofNat 125

/-- Read a JSON string literal without escapes: leading quote already
consumed by the caller is not assumed — the list must start with `"`. -/
def readStringLitAux : List Char → List Char → Option (String × List Char)
  | [], _ => none
  | '"' :: rest, acc => some (String.mk acc.reverse, rest)
  | c :: rest, acc => readStringLitAux rest (c :: acc)

/-- Read a JSON string literal. -/
def readStringLit : List Char → Option (String × List Char)
  | '"' :: rest => readStringLitAux rest []
  | _ => none

/-- Member list of a compact flat JSON object: `"k":"v"` pairs separated
by commas, closed by the right brace at the very end of the line.  Fueled
recursion (each step consumes input, fuel = input length suffices). -/
def readMembersAux : Nat → List Char → Option JRecord
  | 0, _ => none
  | fuel + 1, l =>
      match readStringLit l with
      | none => none
      | some (key, rest) =>
          match rest with
          | ':' :: rest2 =>
              match readStringLit rest2 with
              | none => none
              | some (value, rest3) =>
                  match rest3 with
                  | c :: rest4 =>
                      if c = ',' then
                        match readMembersAux fuel rest4 with
                        | none => none
                        | some pairs => some ((key, .str value) :: pairs)
                      else if c = rbrace ∧ rest4 = [] then
                        some [(key, .str value)]
                      else none
                  | [] => none
          | _ => none

/-- Models the external `encoding/json.Unmarshal` collaborator on the
fragment of JSON this development feeds it: compact flat objects with
string keys and string values and no escapes or interior whitespace
(`\x7b\x7d`, `\x7b"k":"v",...\x7d`); everything else is a decode
error. -/
def jsonDecodeModel (s : String) : Option JRecord :=
  match s.toList with
  | c :: rest =>
      if c = lbrace then
        match rest with
        | [d] => if d = rbrace then some [] else none
        | _ => readMembersAux rest.length rest
      else none
  | [] => none

/-- `parsers.ParseCSV` on the data rows, given the copied header. -/
def parseCSVRows (headers : List String) :
    List (Except String (List String)) → List URecord × List String
  | [] => ([], [])
  | .error e :: rest =>
      let (rs, es) := parseCSVRows headers rest
      (rs, e :: es)
  | .ok row :: rest =>
      let record : URecord :=
        ((headers.enum.map fun p => (p.2, row.getD p.1 "")).reverse)
      let (rs, es) := parseCSVRows headers rest
      (record :: rs, es)

/-- `parsers.ParseCSV`: the first `Read` is the header (an error there is
emitted and ends the stream; EOF yields empty streams), then data rows.
Duplicate header names overwrite in Go's map; the association list is
reversed so that lookups see the last assignment. -/
def parseCSV : List (Except String (List String)) → List URecord × List String
  | [] => ([], [])
  | .error e :: _ => ([], [e])
  | .ok headers :: rest => parseCSVRows headers rest

/-! ## Shared specification-side notions and concrete inputs -/

/-- Number of stored user rows carrying a given exact email key. -/
def countEmail (t : List UserModel) (e : String) : Nat :=
  t.countP fun r => r.email = e

/-- First stored user row carrying a given exact email key (the row a
unique-indexed table holds for that key). -/
def findByEmail (t : List UserModel) (e : String) : Option UserModel :=
  t.find? fun r => r.email = e

/-- The invariant of C9: a validation result is valid exactly when its
error list is empty. -/
def ResultInv (r : RecordValidationResult) : Prop :=
  r.valid = true ↔ r.errors = []

/-- A valid user CSV record (used by concrete witnesses). -/
def sampleUserRecord : URecord :=
  [("email", "a@example.com"), ("name", "Ada"), ("role", "admin"), ("active", "true")]

/-- A user CSV record with a blank email (fails validation). -/
def blankEmailRecord : URecord :=
  [("email", ""), ("name", "Bob"), ("role", "reader"), ("active", "false")]

/-- A second valid user CSV record. -/
def sampleUserRecord2 : URecord :=
  [("email", "c@example.com"), ("name", "Cy"), ("role", "reader"), ("active", "false")]

/-- Upper-case-email variant for the C5 scenario. -/
def upperEmailRecord : URecord :=
  [("email", "A@example.com"), ("name", "N1"), ("role", "admin"), ("active", "true")]

/-- Lower-case-email variant for the C5 scenario. -/
def lowerEmailRecord : URecord :=
  [("email", "a@example.com"), ("name", "N2"), ("role", "reader"), ("active", "false")]

/-- A draft article record carrying a publication timestamp whose other
fields are all valid (C7 witness input). -/
def draftWithPubRecord : JRecord :=
  [("slug", .str "my-draft"), ("title", .str "T"), ("body", .str "B"),
   ("author_id", .str "u1"), ("status", .str "draft"),
   ("published_at", .str "2024-01-01T00:00:00Z")]

/-- A published article record (valid). -/
def publishedRecord : JRecord :=
  [("slug", .str "pub-1"), ("title", .str "T"), ("body", .str "B"),
   ("author_id", .str "u1"), ("status", .str "published")]

/-- `n` copies of the word `w` separated by single spaces. -/
def sepWords (w : List Char) : Nat → List Char
  | 0 => []
  | 1 => w
  | n + 2 => w ++ ' ' :: sepWords w (n + 1)

/-- A comment body of 501 one-character words: more than 500 words, yet
only 1001 bytes — below the 3500-byte word-count trigger. -/
def shortManyWordsBody : String :=
  String.mk (sepWords ['a'] 501)

/-- A comment record whose body has 501 words in 1001 bytes (C8
counterexample input); every other field is valid. -/
def c8CommentRecord : JRecord :=
  [("id", .str "c1"), ("article_id", .str "a1"), ("user_id", .str "u1"),
   ("body", .str shortManyWordsBody)]

/-- A comment body of 501 seven-character words (4007 bytes): above the
3500-byte trigger and above 500 words. -/
def longManyWordsBody : String :=
  String.mk (sepWords ['a', 'b', 'c', 'd', 'e', 'f', 'g'] 501)

/-- A comment record whose body has 501 words in 4007 bytes (C8 amended
witness input). -/
def c8LongCommentRecord : JRecord :=
  [("id", .str "c2"), ("article_id", .str "a1"), ("user_id", .str "u1"),
   ("body", .str longManyWordsBody)]

/-- An NDJSON line exceeding the scanner's 1 MiB buffer. -/
def overlongLine : String :=
  String.mk (List.replicate (maxLineCapacity + 1) 'a')

/-- A well-formed NDJSON line (decodes under `jsonDecodeModel`). -/
def wellFormedLine : String := "\x7b\"a\":\"b\"\x7d"

/-- The stored user row of the C3 scenario. -/
def c3User : UserModel :=
  { id := "u1", email := "u1@example.com", name := "U", role := "author",
    active := true, createdAt := 1, updatedAt := 1 }

/-- The stored article row of the C3 scenario (slug `s`, authored by the
stored user, with one attached comment). -/
def c3Article : ArticleModel :=
  { id := "a1", slug := "s", title := "Old", body := "Old", authorID := "u1",
    tags := "", status := "published", publishedAt := none, createdAt := 1 }

/-- The stored comment row of the C3 scenario, referencing the stored
article and user. -/
def c3Comment : CommentModel :=
  { id := "c1", articleID := "a1", userID := "u1", body := "hi", createdAt := 1 }

/-- A pending articles-import job for the C3 scenario. -/
def c3Job : ImportJob :=
  { id := "job1", idempotencyKey := "k1", resourceType := "articles",
    status := "pending", filePath := "f", createdAt := 2, updatedAt := 2 }

/-- The C3 store: a referentially intact database plus the pending job. -/
def c3DB : DB :=
  { users := [c3User], articles := [c3Article], comments := [c3Comment],
    importJobs := [c3Job] }

/-- The C3 import stream: one article record re-importing slug `s` with a
dangling author reference (semantically valid at validation time). -/
def c3Stream : List JRecord :=
  [[("slug", .str "s"), ("title", .str "New"), ("body", .str "New"),
    ("author_id", .str "ghost"), ("status", .str "published")]]

/-- A fresh users-import job (witness scenarios). -/
def wUsersJob : ImportJob :=
  { id := "job2", idempotencyKey := "k2", resourceType := "users",
    status := "pending", filePath := "f", createdAt := 0, updatedAt := 0 }

/-- A stored export job under an idempotency key (C1 witness scenario). -/
def wExportJob : ExportJob :=
  { id := "ej1", idempotencyKey := "ek", resourceType := "users",
    format := "csv", status := "processing", createdAt := 3 }

/-- A stored import job under an idempotency key, mid-processing (C1
witness scenario). -/
def wImportJob : ImportJob :=
  { id := "ij1", idempotencyKey := "ik", resourceType := "users",
    status := "processing", filePath := "f", createdAt := 3, updatedAt := 4 }

/-- A pending users export job (C10 witness scenario). -/
def wExportJob2 : ExportJob :=
  { id := "ej2", idempotencyKey := "ek2", resourceType := "users",
    format := "csv", status := "pending", createdAt := 5 }

/-- A stored user row (C4 witness scenario). -/
def c4StoredUser : UserModel :=
  { id := "id0", email := "x@y.co", name := "Old", role := "reader",
    active := false, createdAt := 1, updatedAt := 1 }

/-- An incoming normalized user conflicting with the stored row on the
email key but carrying a different identifier and timestamps. -/
def c4IncomingUser : UserModel :=
  { id := "idNEW", email := "x@y.co", name := "New", role := "admin",
    active := true, createdAt := 9, updatedAt := 9 }

/-- A store holding one import job and one export job mid-processing
under their idempotency keys (C1 witness scenario). -/
def c1DB : DB :=
  { importJobs := [wImportJob], exportJobs := [wExportJob] }

/-- The instant of the C1 witness calls. -/
def c1Gen : Gen := { counter := 0, now := 8 }

/-- A retried import-creation request carrying the stored key. -/
def c1ImpReq : ImportRequest :=
  { idempotencyKey := "ik", body := .multipart true "f.csv" "users" true }

/-- A retried export-creation request carrying the stored key. -/
def c1ExpReq : ExportRequest :=
  { idempotencyKey := "ek", resourceType := "users", format := "csv" }

/-! # Theorems -/

/-! ## C9 — the validation-result invariant -/

theorem resultInv_addError (r : RecordValidationResult) (f m : String) :
    ResultInv (r.addError f m) := by
  simp [ResultInv, RecordValidationResult.addError]

theorem validateUserRecord_resultInv (record : URecord) (rowNum : Nat) :
    ResultInv (validateUserRecord record rowNum) := by
  simp only [validateUserRecord]
  split_ifs <;> simp [ResultInv, RecordValidationResult.addError]

theorem validateArticleRecord_resultInv (record : JRecord) (rowNum : Nat) :
    ResultInv (validateArticleRecord record rowNum) := by
  simp only [validateArticleRecord]
  cases hid : jGet record "id" <;> split_ifs <;>
    simp [ResultInv, RecordValidationResult.addError] <;>
    split <;> simp

theorem validateCommentRecord_resultInv (record : JRecord) (rowNum : Nat) :
    ResultInv (validateCommentRecord record rowNum) := by
  simp only [validateCommentRecord]
  cases hid : jGet record "id" <;> split_ifs <;>
    simp [ResultInv, RecordValidationResult.addError] <;>
    split <;> simp

/-- C9: every `RecordValidationResult` produced or mutated through the
validation interface satisfies `Valid ↔ errors empty`: a freshly
constructed result is valid with no errors; `AddError` appends exactly one
`(field, message)` pair and sets `Valid` to `false`; consequently each of
the three record validators returns a result that is valid exactly when
its error list is empty. -/
theorem C9_validation_result_invariant :
    (∀ rowNum recID,
        ({ rowNumber := rowNum, recordID := recID, valid := true } :
          RecordValidationResult).valid = true ∧
        ({ rowNumber := rowNum, recordID := recID, valid := true } :
          RecordValidationResult).errors = []) ∧
    (∀ (r : RecordValidationResult) (f m : String),
        (r.addError f m).valid = false ∧
        (r.addError f m).errors = r.errors ++ [{ field := f, message := m }]) ∧
    (∀ record rowNum, (validateUserRecord record rowNum).valid = true ↔
        (validateUserRecord record rowNum).errors = []) ∧
    (∀ record rowNum, (validateArticleRecord record rowNum).valid = true ↔
        (validateArticleRecord record rowNum).errors = []) ∧
    (∀ record rowNum, (validateCommentRecord record rowNum).valid = true ↔
        (validateCommentRecord record rowNum).errors = []) := by
  refine ⟨fun rowNum recID => ⟨rfl, rfl⟩,
          fun r f m => ⟨rfl, rfl⟩, ?_, ?_, ?_⟩
  · exact fun record rowNum => validateUserRecord_resultInv record rowNum
  · exact fun record rowNum => validateArticleRecord_resultInv record rowNum
  · exact fun record rowNum => validateCommentRecord_resultInv record rowNum

/-! ## C7 — draft articles with a publication timestamp are rejected -/

theorem validateArticleRecord_draftPub (record : JRecord) (rowNum : Nat)
    (h1 : getStringField record "status" = "draft")
    (h2 : getStringField record "published_at" ≠ "") :
    (validateArticleRecord record rowNum).valid = false ∧
    ∃ e ∈ (validateArticleRecord record rowNum).errors, e.field = "published_at" := by
  simp only [validateArticleRecord, statusDraft]
  rw [if_pos ⟨h1, h2⟩]
  refine ⟨rfl, ⟨_, List.mem_append_right _ (List.mem_singleton_self _), rfl⟩⟩

/-- C7: a content record whose status is `draft` and whose publication
timestamp is non-blank is marked invalid with a field-level error on
`published_at`, whatever the other fields hold; consequently every
normalized article the batch processor sends to the upsert stems from a
record without that combination, so no such record is written. -/
theorem C7_draft_constraint :
    (∀ (record : JRecord) (rowNum : Nat),
        getStringField record "status" = "draft" →
        getStringField record "published_at" ≠ "" →
        (validateArticleRecord record rowNum).valid = false ∧
        ∃ e ∈ (validateArticleRecord record rowNum).errors, e.field = "published_at") ∧
    (∀ (g : Gen) (batch : List JRecord) (row : Nat) (a : ArticleModel),
        a ∈ (selectValidArticles g batch row).1 →
        ∃ rec ∈ batch,
          ¬(getStringField rec "status" = "draft" ∧
            getStringField rec "published_at" ≠ "") ∧
          ∃ g2, a = (normalizeArticleRecord g2 rec).1) := by
  refine ⟨fun record rowNum h1 h2 => validateArticleRecord_draftPub record rowNum h1 h2, ?_⟩
  intro g batch row a ha
  induction batch generalizing g row with
  | nil => simp [selectValidArticles] at ha
  | cons rec rest ih =>
      simp only [selectValidArticles] at ha
      by_cases hv : (validateArticleRecord rec row).valid
      · rw [if_pos hv] at ha
        by_cases hs : getStringField rec "slug" = ""
        · rw [if_pos hs] at ha
          rcases hrec : selectValidArticles g rest (row + 1) with ⟨vs, fs, g2⟩
          rw [hrec] at ha
          obtain ⟨rec2, hmem, hprop⟩ := ih g (row + 1) (by rw [hrec]; exact ha)
          exact ⟨rec2, List.mem_cons_of_mem _ hmem, hprop⟩
        · rw [if_neg hs] at ha
          rcases hnorm : normalizeArticleRecord g rec with ⟨a0, g1⟩
          rw [hnorm] at ha
          rcases hrec : selectValidArticles g1 rest (row + 1) with ⟨vs, fs, g2⟩
          rw [hrec] at ha
          rcases List.mem_cons.mp ha with h | h
          · refine ⟨rec, List.mem_cons_self _ _, ?_, g, ?_⟩
            · rintro ⟨hd, hp⟩
              have := (validateArticleRecord_draftPub rec row hd hp).1
              rw [hv] at this
              exact Bool.true_eq_false.mp this
            · rw [h, hnorm]
          · obtain ⟨rec2, hmem, hprop⟩ := ih g1 (row + 1) (by rw [hrec]; exact h)
            exact ⟨rec2, List.mem_cons_of_mem _ hmem, hprop⟩
      · rw [if_neg hv] at ha
        rcases hrec : selectValidArticles g rest (row + 1) with ⟨vs, fs, g2⟩
        rw [hrec] at ha
        obtain ⟨rec2, hmem, hprop⟩ := ih g (row + 1) (by rw [hrec]; exact ha)
        exact ⟨rec2, List.mem_cons_of_mem _ hmem, hprop⟩

/-- Concrete instantiation of C7: the draft record with a publication
timestamp is rejected with a `published_at` error, and a valid published
record passing through the batch gate stems from a record without the
forbidden combination. -/
theorem C7_draft_constraint_witness :
    ((validateArticleRecord draftWithPubRecord 1).valid = false ∧
     ∃ e ∈ (validateArticleRecord draftWithPubRecord 1).errors, e.field = "published_at") ∧
    (∃ rec ∈ [publishedRecord],
       ¬(getStringField rec "status" = "draft" ∧
         getStringField rec "published_at" ≠ "") ∧
       ∃ g2, (normalizeArticleRecord { counter := 0, now := 0 } publishedRecord).1
              = (normalizeArticleRecord g2 rec).1) :=
  ⟨C7_draft_constraint.1 draftWithPubRecord 1 (by rfl) (by decide),
   C7_draft_constraint.2 { counter := 0, now := 0 } [publishedRecord] 1
     (normalizeArticleRecord { counter := 0, now := 0 } publishedRecord).1 (by decide)⟩

/-! ## C8 — the comment word-count limit and its length threshold

Deep kernel evaluation of thousand-character strings is avoided: the
word-count, length and trimming facts about the generated bodies are
proved by induction on the generator. -/

theorem sepWords_ne_nil (w : List Char) (hw : w ≠ []) (n : Nat) :
    sepWords w (n + 1) ≠ [] := by
  cases n with
  | zero => simpa [sepWords] using hw
  | succ k => simp [sepWords, hw]

theorem sepWords_length (w : List Char) (n : Nat) :
    (sepWords w (n + 1)).length = (n + 1) * w.length + n := by
  induction n with
  | zero => simp [sepWords]
  | succ k ih =>
      show (w ++ ' ' :: sepWords w (k + 1)).length = _
      simp only [List.length_append, List.length_cons, ih]
      ring

theorem countWordsAux_append_nonws_true (w rest : List Char)
    (hall : ∀ c ∈ w, ¬c.isWhitespace) :
    countWordsAux (w ++ rest) true = countWordsAux rest true := by
  induction w with
  | nil => rfl
  | cons c w ih =>
      have hc : ¬c.isWhitespace := hall c (List.mem_cons_self _ _)
      simp only [List.cons_append, countWordsAux, if_neg hc, if_pos rfl]
      exact ih fun d hd => hall d (List.mem_cons_of_mem _ hd)

theorem countWordsAux_append_nonws_false (w rest : List Char) (hw : w ≠ [])
    (hall : ∀ c ∈ w, ¬c.isWhitespace) :
    countWordsAux (w ++ rest) false = countWordsAux rest true + 1 := by
  cases w with
  | nil => exact absurd rfl hw
  | cons c w =>
      have hc : ¬c.isWhitespace := hall c (List.mem_cons_self _ _)
      simp only [List.cons_append, countWordsAux, if_neg hc]
      rw [if_neg (by simp)]
      show countWordsAux (w ++ rest) true + 1 = countWordsAux rest true + 1
      rw [countWordsAux_append_nonws_true w rest
        fun d hd => hall d (List.mem_cons_of_mem _ hd)]

theorem countWordsAux_sepWords (w : List Char) (hw : w ≠ [])
    (hall : ∀ c ∈ w, ¬c.isWhitespace) (n : Nat) :
    countWordsAux (sepWords w (n + 1)) false = n + 1 := by
  induction n with
  | zero =>
      show countWordsAux w false = 1
      rw [show w = w ++ [] from (List.append_nil w).symm,
          countWordsAux_append_nonws_false w [] hw hall]
      rfl
  | succ k ih =>
      show countWordsAux (w ++ ' ' :: sepWords w (k + 1)) false = k + 2
      rw [countWordsAux_append_nonws_false w _ hw hall]
      have hsp : countWordsAux (' ' :: sepWords w (k + 1)) true
          = countWordsAux (sepWords w (k + 1)) false := by
        simp [countWordsAux]
      rw [hsp, ih]

theorem dropWhile_eq_self_of_head (p : Char → Bool) (l : List Char)
    (h : ∀ c, l.head? = some c → p c = false) : l.dropWhile p = l := by
  cases l with
  | nil => rfl
  | cons c t => simp [List.dropWhile, h c rfl]

theorem sepWords_head? (w : List Char) (c : Char) (hw : w.head? = some c) (n : Nat) :
    (sepWords w (n + 1)).head? = some c := by
  obtain ⟨w2, rfl⟩ : ∃ w2, w = c :: w2 := by
    cases w with
    | nil => simp at hw
    | cons a t => exact ⟨t, by simpa using congrArg (fun o => (Option.getD o a) :: t) hw⟩
  cases n with
  | zero => simp [sepWords]
  | succ k => simp [sepWords]

theorem sepWords_getLast? (w : List Char) (c : Char) (hw : w ≠ [])
    (hl : w.getLast? = some c) (n : Nat) :
    (sepWords w (n + 1)).getLast? = some c := by
  induction n with
  | zero => simpa [sepWords] using hl
  | succ k ih =>
      show (w ++ ' ' :: sepWords w (k + 1)).getLast? = some c
      rw [List.getLast?_append_of_ne_nil w (by simp)]
      rw [show (' ' :: sepWords w (k + 1)) = [' '] ++ sepWords w (k + 1) from rfl]
      rw [List.getLast?_append_of_ne_nil [' '] (sepWords_ne_nil w hw k)]
      exact ih

theorem strTrim_mk_of_ends (l : List Char) (c1 c2 : Char)
    (h1 : l.head? = some c1) (hc1 : ¬c1.isWhitespace)
    (h2 : l.getLast? = some c2) (hc2 : ¬c2.isWhitespace) :
    strTrim (String.mk l) = String.mk l := by
  show String.mk (((l.dropWhile Char.isWhitespace).reverse.dropWhile
    Char.isWhitespace).reverse) = String.mk l
  rw [dropWhile_eq_self_of_head _ l (fun c hc => by
    rw [h1] at hc
    cases hc
    simpa using hc1)]
  rw [dropWhile_eq_self_of_head _ l.reverse (fun c hc => by
    rw [List.head?_reverse, h2] at hc
    cases hc
    simpa using hc2)]
  rw [List.reverse_reverse]

theorem c8_short_body_getStringField :
    getStringField c8CommentRecord "body" = shortManyWordsBody := by
  show getStringField c8CommentRecord "body" = _
  have : jGet c8CommentRecord "body" = some (.str shortManyWordsBody) := by rfl
  rw [getStringField, this]
  show strTrim shortManyWordsBody = shortManyWordsBody
  exact strTrim_mk_of_ends _ 'a' 'a'
    (sepWords_head? ['a'] 'a' rfl 500) (by decide)
    (sepWords_getLast? ['a'] 'a' (by decide) rfl 500) (by decide)

theorem c8_short_body_length : shortManyWordsBody.length = 1001 := by
  show (sepWords ['a'] 501).length = 1001
  rw [sepWords_length ['a'] 500]
  rfl

theorem c8_short_body_words : countWords shortManyWordsBody = 501 := by
  rw [countWords]
  rw [if_neg (fun h => sepWords_ne_nil ['a'] (by decide) 500
    (by simpa using congrArg String.data h))]
  exact countWordsAux_sepWords ['a'] (by decide) (by decide) 500

/-- C8 counterexample: a comment body of 501 one-character words (1001
bytes) exceeds 500 words, yet the validator accepts the record — the
3500-byte quick check prevents the word count from running, so the
threshold does change which records are rejected. -/
theorem C8_counterexample :
    countWords (getStringField c8CommentRecord "body") = 501 ∧
    (getStringField c8CommentRecord "body").length ≤ 3500 ∧
    (validateCommentRecord c8CommentRecord 1).valid = true := by
  refine ⟨by rw [c8_short_body_getStringField]; exact c8_short_body_words,
          by rw [c8_short_body_getStringField, c8_short_body_length]; omega, ?_⟩
  simp only [validateCommentRecord]
  rw [c8_short_body_getStringField, c8_short_body_length]
  rw [if_neg (by omega)]
  decide

/-- C8 (amended): a comment body is word-counted only when it is longer
than 3500 bytes; a record whose body both exceeds 3500 bytes and has
more than 500 words is marked invalid with a field error on `body`,
while a body of at most 3500 bytes never produces a `body` error
regardless of its word count. -/
theorem C8_body_word_limit :
    (∀ (record : JRecord) (rowNum : Nat),
        (getStringField record "body").length > 3500 →
        countWords (getStringField record "body") > 500 →
        (validateCommentRecord record rowNum).valid = false ∧
        ∃ e ∈ (validateCommentRecord record rowNum).errors, e.field = "body") ∧
    (∀ (record : JRecord) (rowNum : Nat),
        (getStringField record "body").length ≤ 3500 →
        ∀ e ∈ (validateCommentRecord record rowNum).errors, e.field ≠ "body") := by
  constructor
  · intro record rowNum hlen hwc
    simp only [validateCommentRecord]
    rw [if_pos hlen, if_pos hwc]
    exact ⟨rfl, ⟨_, List.mem_append_right _ (List.mem_singleton_self _), rfl⟩⟩
  · intro record rowNum hlen
    simp only [validateCommentRecord]
    rw [if_neg (Nat.not_lt.mpr hlen)]
    cases hid : jGet record "id" <;> split_ifs <;>
      simp [RecordValidationResult.addError, apply_ite, ite_self]

theorem c8_long_body_getStringField :
    getStringField c8LongCommentRecord "body" = longManyWordsBody := by
  have : jGet c8LongCommentRecord "body" = some (.str longManyWordsBody) := by rfl
  rw [getStringField, this]
  show strTrim longManyWordsBody = longManyWordsBody
  exact strTrim_mk_of_ends _ 'a' 'g'
    (sepWords_head? ['a', 'b', 'c', 'd', 'e', 'f', 'g'] 'a' rfl 500) (by decide)
    (sepWords_getLast? ['a', 'b', 'c', 'd', 'e', 'f', 'g'] 'g' (by decide) rfl 500)
    (by decide)

theorem c8_long_body_length : longManyWordsBody.length = 4007 := by
  show (sepWords ['a', 'b', 'c', 'd', 'e', 'f', 'g'] 501).length = 4007
  rw [sepWords_length _ 500]
  rfl

theorem c8_long_body_words : countWords longManyWordsBody = 501 := by
  rw [countWords]
  rw [if_neg (fun h => sepWords_ne_nil ['a', 'b', 'c', 'd', 'e', 'f', 'g'] (by decide) 500
    (by simpa using congrArg String.data h))]
  exact countWordsAux_sepWords _ (by decide) (by decide) 500

/-- Concrete instantiation of the amended C8 theorem: a 4007-byte,
501-word comment body is rejected with a field error on `body`. -/
theorem C8_body_word_limit_witness :
    (validateCommentRecord c8LongCommentRecord 1).valid = false ∧
    ∃ e ∈ (validateCommentRecord c8LongCommentRecord 1).errors, e.field = "body" :=
  C8_body_word_limit.1 c8LongCommentRecord 1
    (by rw [c8_long_body_getStringField, c8_long_body_length]; omega)
    (by rw [c8_long_body_getStringField, c8_long_body_words]; omega)

/-! ## C6 — parser error recovery -/

/-- C6 counterexample: an NDJSON line exceeding the 1 MiB scanner buffer
terminates the record stream — the following well-formed line (which the
decoder accepts, first conjunct) is never delivered, refuting the claim
that no per-line parse error terminates the stream. -/
theorem C6_counterexample :
    jsonDecodeModel wellFormedLine = some [("a", JValue.str "b")] ∧
    parseNDJSONWith jsonDecodeModel [overlongLine, wellFormedLine]
      = ([], [NDJSONError.lineTooLong]) := by
  constructor
  · rfl
  · have hlen : overlongLine.length > maxLineCapacity := by
      have : overlongLine.length = maxLineCapacity + 1 := by
        show (List.replicate (maxLineCapacity + 1) 'a').length = maxLineCapacity + 1
        exact List.length_replicate _ _
      omega
    simp [parseNDJSONWith, hlen]

/-- C6 (amended): a malformed NDJSON line (not valid JSON) produces one
recorded error and is skipped with the stream continuing, a well-formed
line is delivered and the stream continues, a blank line is silently
skipped, and a malformed CSV data row produces one recorded error and is
skipped with the stream continuing; but an NDJSON line exceeding the
1 MiB maximum line length ends the record stream after recording one
error — lines after it are not delivered (the import job itself is not
aborted: it drains the error channel and completes on the records
received). -/
theorem C6_parse_error_recovery :
    (∀ (decode : String → Option JRecord) (line : String) (rest : List String),
        line.length ≤ maxLineCapacity → line ≠ "" → decode line = none →
        parseNDJSONWith decode (line :: rest)
          = ((parseNDJSONWith decode rest).1,
             .invalidJSON line :: (parseNDJSONWith decode rest).2)) ∧
    (∀ (decode : String → Option JRecord) (line : String) (rest : List String)
        (record : JRecord),
        line.length ≤ maxLineCapacity → line ≠ "" → decode line = some record →
        parseNDJSONWith decode (line :: rest)
          = (record :: (parseNDJSONWith decode rest).1,
             (parseNDJSONWith decode rest).2)) ∧
    (∀ (decode : String → Option JRecord) (rest : List String),
        parseNDJSONWith decode ("" :: rest) = parseNDJSONWith decode rest) ∧
    (∀ (headers : List String) (e : String) (rows : List (Except String (List String))),
        parseCSVRows headers (.error e :: rows)
          = ((parseCSVRows headers rows).1, e :: (parseCSVRows headers rows).2)) ∧
    (∀ (decode : String → Option JRecord) (line : String) (rest : List String),
        line.length > maxLineCapacity →
        parseNDJSONWith decode (line :: rest) = ([], [.lineTooLong])) := by
  refine ⟨?_, ?_, ?_, ?_, ?_⟩
  · intro decode line rest h1 h2 h3
    rcases hp : parseNDJSONWith decode rest with ⟨rs, es⟩
    simp [parseNDJSONWith, Nat.not_lt.mpr h1, h2, h3, hp]
  · intro decode line rest record h1 h2 h3
    rcases hp : parseNDJSONWith decode rest with ⟨rs, es⟩
    simp [parseNDJSONWith, Nat.not_lt.mpr h1, h2, h3, hp]
  · intro decode rest
    simp [parseNDJSONWith, maxLineCapacity]
  · intro headers e rows
    rcases hp : parseCSVRows headers rows with ⟨rs, es⟩
    simp [parseCSVRows, hp]
  · intro decode line rest h1
    simp [parseNDJSONWith, h1]

/-- Concrete instantiation of the amended C6 theorem: a malformed NDJSON
line and a malformed CSV row are each recorded once and skipped with the
streams continuing. -/
theorem C6_parse_error_recovery_witness :
    (parseNDJSONWith jsonDecodeModel ("bad" :: [wellFormedLine])
      = ((parseNDJSONWith jsonDecodeModel [wellFormedLine]).1,
         .invalidJSON "bad" :: (parseNDJSONWith jsonDecodeModel [wellFormedLine]).2)) ∧
    (parseCSVRows ["a", "b"] (.error "bare quote" :: [.ok ["1", "2"]])
      = ((parseCSVRows ["a", "b"] [.ok ["1", "2"]]).1,
         "bare quote" :: (parseCSVRows ["a", "b"] [.ok ["1", "2"]]).2)) :=
  ⟨C6_parse_error_recovery.1 jsonDecodeModel "bad" [wellFormedLine]
      (by decide) (by decide) rfl,
   C6_parse_error_recovery.2.2.2.1 ["a", "b"] "bare quote" [.ok ["1", "2"]]⟩

/-! ## User upsert machinery (C4, C5) -/

theorem applyUserConflictUpdate_email (old v : UserModel) :
    (applyUserConflictUpdate old v).email = old.email := rfl

theorem countEmail_map_conflict (t : List UserModel) (v : UserModel) (e : String) :
    countEmail (t.map fun x => if x.email = v.email then applyUserConflictUpdate x v else x) e
      = countEmail t e := by
  unfold countEmail
  rw [List.countP_map]
  induction t with
  | nil => rfl
  | cons a t ih =>
      simp only [List.countP_cons, ih, Function.comp]
      by_cases ha : a.email = v.email <;> simp [ha, applyUserConflictUpdate]

theorem countEmail_upsertOneUser_le (t : List UserModel) (v : UserModel)
    (h : ∀ e, countEmail t e ≤ 1) (e : String) :
    countEmail (upsertOneUser t v) e ≤ 1 := by
  unfold upsertOneUser
  split
  · rw [countEmail_map_conflict]
    exact h e
  · rename_i hany
    unfold countEmail
    rw [List.countP_append]
    by_cases hv : v.email = e
    · have h0 : List.countP (fun r => decide (r.email = e)) t = 0 := by
        rw [List.countP_eq_zero]
        intro a ha
        simp only [decide_eq_true_eq]
        intro hae
        exact hany (List.any_eq_true.mpr ⟨a, ha, by simp [hae, hv]⟩)
      simp [h0, hv, countEmail]
    · have h1 : List.countP (fun r => decide (r.email = e)) [v] = 0 := by
        simp [hv]
      rw [h1]
      simpa [countEmail] using h e

theorem countEmail_upsertUsers_le (vs : List UserModel) (t : List UserModel)
    (h : ∀ e, countEmail t e ≤ 1) (e : String) :
    countEmail (upsertUsers t vs) e ≤ 1 := by
  induction vs generalizing t with
  | nil => exact h e
  | cons v vs ih =>
      exact ih (upsertOneUser t v) (countEmail_upsertOneUser_le t v h)

theorem findByEmail_map_conflict (t : List UserModel) (v r : UserModel) (e : String)
    (hv : v.email = e) (hr : findByEmail t e = some r) :
    findByEmail (t.map fun x => if x.email = v.email then applyUserConflictUpdate x v else x) e
      = some (applyUserConflictUpdate r v) := by
  induction t with
  | nil => simp [findByEmail] at hr
  | cons a t ih =>
      by_cases ha : a.email = e
      · have : r = a := by
          have := hr
          unfold findByEmail at this
          rw [List.find?_cons_of_pos _ (by simp [ha])] at this
          exact (Option.some.injEq _ _ ▸ this).symm
        subst this
        unfold findByEmail
        simp only [List.map_cons]
        rw [if_pos (by rw [ha, hv])]
        rw [List.find?_cons_of_pos _ (by simp [applyUserConflictUpdate_email, ha])]
      · have hr2 : findByEmail t e = some r := by
          have := hr
          unfold findByEmail at this
          rw [List.find?_cons_of_neg _ (by simp [ha])] at this
          exact this
        unfold findByEmail
        simp only [List.map_cons]
        have hfa : (if a.email = v.email then applyUserConflictUpdate a v else a).email
            = a.email := by
          split <;> simp [applyUserConflictUpdate_email]
        rw [List.find?_cons_of_neg _ (by simp [hfa, ha])]
        exact ih hr2

theorem findByEmail_map_skip (t : List UserModel) (v r : UserModel) (e : String)
    (hv : v.email ≠ e) (hr : findByEmail t e = some r) :
    findByEmail (t.map fun x => if x.email = v.email then applyUserConflictUpdate x v else x) e
      = some r := by
  induction t with
  | nil => simp [findByEmail] at hr
  | cons a t ih =>
      by_cases ha : a.email = e
      · have : r = a := by
          have := hr
          unfold findByEmail at this
          rw [List.find?_cons_of_pos _ (by simp [ha])] at this
          exact (Option.some.injEq _ _ ▸ this).symm
        subst this
        unfold findByEmail
        simp only [List.map_cons]
        rw [if_neg (fun hc => hv (by rw [← hc]; exact ha))]
        rw [List.find?_cons_of_pos _ (by simp [ha])]
      · have hr2 : findByEmail t e = some r := by
          have := hr
          unfold findByEmail at this
          rw [List.find?_cons_of_neg _ (by simp [ha])] at this
          exact this
        unfold findByEmail
        simp only [List.map_cons]
        have hfa : (if a.email = v.email then applyUserConflictUpdate a v else a).email
            = a.email := by
          split <;> simp [applyUserConflictUpdate_email]
        rw [List.find?_cons_of_neg _ (by simp [hfa, ha])]
        exact ih hr2

theorem findByEmail_upsertOneUser_conflict (t : List UserModel) (v r : UserModel)
    (e : String) (hv : v.email = e) (hr : findByEmail t e = some r) :
    findByEmail (upsertOneUser t v) e = some (applyUserConflictUpdate r v) := by
  unfold upsertOneUser
  rw [if_pos]
  · exact findByEmail_map_conflict t v r e hv hr
  · refine List.any_eq_true.mpr ⟨r, List.mem_of_find?_eq_some hr, ?_⟩
    have := List.find?_some hr
    simp only [decide_eq_true_eq] at this
    simp [this, hv]

theorem findByEmail_upsertOneUser_skip (t : List UserModel) (v r : UserModel)
    (e : String) (hv : v.email ≠ e) (hr : findByEmail t e = some r) :
    findByEmail (upsertOneUser t v) e = some r := by
  unfold upsertOneUser
  split
  · exact findByEmail_map_skip t v r e hv hr
  · unfold findByEmail at hr ⊢
    rw [List.find?_append, hr]
    rfl

theorem countEmail_eq_one_of_find (t : List UserModel) (e : String) (r : UserModel)
    (hu : ∀ e2, countEmail t e2 ≤ 1) (hr : findByEmail t e = some r) :
    countEmail t e = 1 := by
  have hpos : 0 < countEmail t e := by
    unfold findByEmail at hr
    unfold countEmail
    rw [List.countP_pos_iff]
    have hp := List.find?_some hr
    exact ⟨r, List.mem_of_find?_eq_some hr, hp⟩
  have := hu e
  omega

/-- C4: over any batched user upsert, a stored row hit by a natural-key
conflict remains the single stored row for that key; the conflict writes
overwrite exactly `name`, `role`, `active` and `updated_at` with the
values of the most recent conflicting batch entry, while `id`, `email`
and `created_at` of the stored row are untouched (and a key with no
conflicting entry leaves the row entirely unchanged). -/
theorem C4_user_upsert_frame (vs : List UserModel) (t : List UserModel) (r : UserModel)
    (e : String) (hu : ∀ e2, countEmail t e2 ≤ 1) (hr : findByEmail t e = some r) :
    countEmail (upsertUsers t vs) e = 1 ∧
    ∃ r2, findByEmail (upsertUsers t vs) e = some r2 ∧
      r2.id = r.id ∧ r2.email = r.email ∧ r2.createdAt = r.createdAt ∧
      (match (vs.filter fun v => v.email = e).getLast? with
       | some v => r2.name = v.name ∧ r2.role = v.role ∧ r2.active = v.active ∧
                   r2.updatedAt = v.updatedAt
       | none => r2 = r) := by
  induction vs generalizing t r with
  | nil =>
      refine ⟨countEmail_eq_one_of_find t e r hu hr, r, hr, rfl, rfl, rfl, ?_⟩
      simp
  | cons v vs ih =>
      by_cases hv : v.email = e
      · have hr1 := findByEmail_upsertOneUser_conflict t v r e hv hr
        have hu1 := countEmail_upsertOneUser_le t v hu
        obtain ⟨hc, r2, hfind, hid, hemail, hcreated, hmut⟩ :=
          ih (upsertOneUser t v) (applyUserConflictUpdate r v) hu1 hr1
        refine ⟨hc, r2, hfind, ?_, ?_, ?_, ?_⟩
        · simpa [applyUserConflictUpdate] using hid
        · simpa [applyUserConflictUpdate] using hemail
        · simpa [applyUserConflictUpdate] using hcreated
        · rw [show (v :: vs).filter (fun x => decide (x.email = e))
              = v :: vs.filter (fun x => decide (x.email = e)) from by
            simp [List.filter_cons, hv]]
          cases hlast : (vs.filter fun x => decide (x.email = e)).getLast? with
          | none =>
              have hnil : vs.filter (fun x => decide (x.email = e)) = [] := by
                simpa using hlast
              rw [hnil] at hmut ⊢
              simp only [List.getLast?_singleton]
              rw [hmut]
              exact ⟨rfl, rfl, rfl, rfl⟩
          | some vstar =>
              have hne : vs.filter (fun x => decide (x.email = e)) ≠ [] := by
                intro hnil
                rw [hnil] at hlast
                simp at hlast
              rw [show v :: vs.filter (fun x => decide (x.email = e))
                  = [v] ++ vs.filter (fun x => decide (x.email = e)) from rfl]
              rw [List.getLast?_append_of_ne_nil [v] hne, hlast]
              rw [hlast] at hmut
              exact hmut
      · have hr1 := findByEmail_upsertOneUser_skip t v r e hv hr
        have hu1 := countEmail_upsertOneUser_le t v hu
        obtain ⟨hc, r2, hfind, hid, hemail, hcreated, hmut⟩ :=
          ih (upsertOneUser t v) r hu1 hr1
        refine ⟨hc, r2, hfind, hid, hemail, hcreated, ?_⟩
        rw [show (v :: vs).filter (fun x => decide (x.email = e))
            = vs.filter (fun x => decide (x.email = e)) from by
          simp [List.filter_cons, hv]]
        exact hmut

/-- Concrete instantiation of C4: upserting a conflicting user over a
one-row table keeps a single row whose `id`, `email`, `created_at` come
from the stored row and whose mutable columns come from the incoming
entity. -/
theorem C4_user_upsert_frame_witness :
    countEmail (upsertUsers [c4StoredUser] [c4IncomingUser]) "x@y.co" = 1 ∧
    ∃ r2, findByEmail (upsertUsers [c4StoredUser] [c4IncomingUser]) "x@y.co" = some r2 ∧
      r2.id = c4StoredUser.id ∧ r2.email = c4StoredUser.email ∧
      r2.createdAt = c4StoredUser.createdAt ∧
      (match (([c4IncomingUser] : List UserModel).filter
          fun v => v.email = "x@y.co").getLast? with
       | some v => r2.name = v.name ∧ r2.role = v.role ∧ r2.active = v.active ∧
                   r2.updatedAt = v.updatedAt
       | none => r2 = c4StoredUser) :=
  C4_user_upsert_frame [c4IncomingUser] [c4StoredUser] c4StoredUser "x@y.co"
    (fun e2 => by
      unfold countEmail
      rw [List.countP_cons, List.countP_nil]
      split <;> omega)
    (by decide)

/-! ## C5 — the email natural key is exact, not case-insensitive -/

/-- C5 counterexample: two imported user records whose emails differ only
in letter case both pass validation and the upsert stores two rows — the
engine does not key on the lower-cased email. -/
theorem C5_counterexample :
    strToLower (strTrim (uGet upperEmailRecord "email"))
      = strToLower (strTrim (uGet lowerEmailRecord "email")) ∧
    (processBatchUsers {} { counter := 0, now := 0 }
      [upperEmailRecord, lowerEmailRecord] 1).1.users.length = 2 ∧
    (processBatchUsers {} { counter := 0, now := 0 }
      [upperEmailRecord, lowerEmailRecord] 1).2.2.2 = [] := by
  refine ⟨by decide, by decide, by decide⟩

/-- C5 (amended): user uniqueness and conflict resolution are keyed on
the exact stored email string (SQLite `TEXT` unique-index comparison is
byte-wise): a table holding at most one row per exact email still does
after any batched upsert, so byte-identical emails collapse onto one row,
while emails differing only in letter case are distinct keys and may
yield two rows. -/
theorem C5_exact_email_key (t : List UserModel) (vs : List UserModel)
    (hu : ∀ e, countEmail t e ≤ 1) :
    ∀ e, countEmail (upsertUsers t vs) e ≤ 1 :=
  countEmail_upsertUsers_le vs t hu

/-- Concrete instantiation of the amended C5 theorem: after upserting two
byte-identical emails into an empty table, at most one row holds that
key. -/
theorem C5_exact_email_key_witness :
    countEmail (upsertUsers [] [c4IncomingUser, c4IncomingUser]) "x@y.co" ≤ 1 :=
  C5_exact_email_key [] [c4IncomingUser, c4IncomingUser]
    (fun e => by unfold countEmail; rw [List.countP_nil]; omega) "x@y.co"

/-! ## C2 — the count invariant of completed imports -/

theorem processBatchUsers_processed (db : DB) (g : Gen) (batch : List URecord)
    (row : Nat) : (processBatchUsers db g batch row).2.2.1 = (batch.length : Int) := by
  unfold processBatchUsers
  rcases h : selectValidUsers g batch row with ⟨vs, fs, g2⟩
  simp [h]

theorem processBatchArticles_processed (db : DB) (g : Gen) (batch : List JRecord)
    (row : Nat) : (processBatchArticles db g batch row).2.2.1 = (batch.length : Int) := by
  unfold processBatchArticles
  rcases h : selectValidArticles g batch row with ⟨vs, fs, g2⟩
  simp [h]

theorem processBatchComments_processed (db : DB) (g : Gen) (batch : List JRecord)
    (row : Nat) : (processBatchComments db g batch row).2.2.1 = (batch.length : Int) := by
  unfold processBatchComments
  rcases h : selectValidComments g batch row with ⟨vs, fs, g2⟩
  simp [h]

theorem importLoopStep_invariants {ρ : Type}
    (pb : DB → Gen → List ρ → Nat → DB × Gen × Int × List RecordValidationResult)
    (hpb : ∀ db g batch row, (pb db g batch row).2.2.1 = (batch.length : Int))
    (st : ImportLoopState ρ) (x : ρ) :
    (importLoopStep pb st x).job.totalRecords = st.job.totalRecords + 1 ∧
    ((importLoopStep pb st x).job.successCount + (importLoopStep pb st x).job.failCount
      + ((importLoopStep pb st x).batch.length : Int)
      - (importLoopStep pb st x).job.totalRecords
     = st.job.successCount + st.job.failCount + (st.batch.length : Int)
      - st.job.totalRecords) ∧
    (importLoopStep pb st x).job.resourceType = st.job.resourceType := by
  unfold importLoopStep
  rcases h : pb st.db st.g (st.batch ++ [x]) st.rowNum with ⟨db2, g2, pc, fr⟩
  have hpc : pc = ((st.batch ++ [x]).length : Int) := by
    have := hpb st.db st.g (st.batch ++ [x]) st.rowNum
    rw [h] at this
    exact this
  simp only [h]
  split_ifs <;> refine ⟨by simp, ?_, by simp⟩ <;>
    (simp only [hpc]; simp; omega)

theorem importLoop_foldl_invariants {ρ : Type}
    (pb : DB → Gen → List ρ → Nat → DB × Gen × Int × List RecordValidationResult)
    (hpb : ∀ db g batch row, (pb db g batch row).2.2.1 = (batch.length : Int))
    (l : List ρ) (st : ImportLoopState ρ) :
    (l.foldl (importLoopStep pb) st).job.totalRecords
      = st.job.totalRecords + (l.length : Int) ∧
    ((l.foldl (importLoopStep pb) st).job.successCount
      + (l.foldl (importLoopStep pb) st).job.failCount
      + (((l.foldl (importLoopStep pb) st).batch.length : Int))
      - (l.foldl (importLoopStep pb) st).job.totalRecords
     = st.job.successCount + st.job.failCount + (st.batch.length : Int)
      - st.job.totalRecords) ∧
    (l.foldl (importLoopStep pb) st).job.resourceType = st.job.resourceType := by
  induction l generalizing st with
  | nil => simp
  | cons x l ih =>
      obtain ⟨h1, h2, h3⟩ := importLoopStep_invariants pb hpb st x
      obtain ⟨ih1, ih2, ih3⟩ := ih (importLoopStep pb st x)
      refine ⟨?_, ?_, ?_⟩
      · rw [List.foldl_cons, ih1, h1]
        simp
        omega
      · rw [List.foldl_cons, ih2, h2]
      · rw [List.foldl_cons, ih3, h3]

theorem importLoopFinish_invariants {ρ : Type}
    (pb : DB → Gen → List ρ → Nat → DB × Gen × Int × List RecordValidationResult)
    (hpb : ∀ db g batch row, (pb db g batch row).2.2.1 = (batch.length : Int))
    (st : ImportLoopState ρ) :
    (importLoopFinish pb st).1.totalRecords = st.job.totalRecords ∧
    ((importLoopFinish pb st).1.successCount + (importLoopFinish pb st).1.failCount
      - (importLoopFinish pb st).1.totalRecords
     = st.job.successCount + st.job.failCount + (st.batch.length : Int)
      - st.job.totalRecords) ∧
    (importLoopFinish pb st).1.resourceType = st.job.resourceType := by
  unfold importLoopFinish
  rcases h : pb st.db st.g st.batch st.rowNum with ⟨db2, g2, pc, fr⟩
  have hpc : pc = (st.batch.length : Int) := by
    have := hpb st.db st.g st.batch st.rowNum
    rw [h] at this
    exact this
  simp only [h]
  split_ifs <;> refine ⟨by simp, ?_, by simp⟩ <;> simp only [hpc] <;> simp <;>
    first
      | omega
      | exact List.eq_nil_of_length_eq_zero (by omega)

theorem runImportLoop_invariants {ρ : Type}
    (pb : DB → Gen → List ρ → Nat → DB × Gen × Int × List RecordValidationResult)
    (hpb : ∀ db g batch row, (pb db g batch row).2.2.1 = (batch.length : Int))
    (job : ImportJob) (db : DB) (g : Gen) (records : List ρ) :
    (runImportLoop pb job db g records).1.totalRecords
      = job.totalRecords + (records.length : Int) ∧
    ((runImportLoop pb job db g records).1.successCount
      + (runImportLoop pb job db g records).1.failCount
      - (runImportLoop pb job db g records).1.totalRecords
     = job.successCount + job.failCount - job.totalRecords) ∧
    (runImportLoop pb job db g records).1.resourceType = job.resourceType := by
  unfold runImportLoop
  obtain ⟨hf1, hf2, hf3⟩ := importLoop_foldl_invariants pb hpb records
    { job := job, db := db, g := g, batch := [], allErrors := [],
      rowNum := 1, batchesProcessed := 0 }
  obtain ⟨hg1, hg2, hg3⟩ := importLoopFinish_invariants pb hpb
    (records.foldl (importLoopStep pb)
      { job := job, db := db, g := g, batch := [], allErrors := [],
        rowNum := 1, batchesProcessed := 0 })
  refine ⟨?_, ?_, ?_⟩
  · rw [hg1, hf1]
  · rw [hg2, hf2]
    simp
  · rw [hg3, hf3]

theorem applyOrphanAdjustment_counts (job : ImportJob) (n : Nat)
    (errs : List RecordValidationResult) :
    (applyOrphanAdjustment job n errs).successCount
      + (applyOrphanAdjustment job n errs).failCount
      = job.successCount + job.failCount ∧
    (applyOrphanAdjustment job n errs).totalRecords = job.totalRecords ∧
    (applyOrphanAdjustment job n errs).resourceType = job.resourceType := by
  unfold applyOrphanAdjustment
  split_ifs <;> simp <;> ring

/-- C2: an import that ends in the `completed` state satisfies
`success_count + fail_count = total_records`, where `total_records` is
the prior total plus exactly the number of records delivered by the
parser's record stream (the CSV view for users, the NDJSON view for
articles/comments; parser-skipped lines never enter the stream), and the
orphan-reconciliation adjustment preserves the equality. -/
theorem C2_count_invariant (job : ImportJob) (db : DB) (g : Gen) (fileOk : Bool)
    (ucsv : List URecord) (jrecords : List JRecord)
    (hz : job.successCount + job.failCount = job.totalRecords)
    (hc : (runImportTask job db g fileOk ucsv jrecords).1.status = "completed") :
    (runImportTask job db g fileOk ucsv jrecords).1.successCount
      + (runImportTask job db g fileOk ucsv jrecords).1.failCount
      = (runImportTask job db g fileOk ucsv jrecords).1.totalRecords ∧
    (job.resourceType = "users" →
      (runImportTask job db g fileOk ucsv jrecords).1.totalRecords
        = job.totalRecords + (ucsv.length : Int)) ∧
    ((job.resourceType = "articles" ∨ job.resourceType = "comments") →
      (runImportTask job db g fileOk ucsv jrecords).1.totalRecords
        = job.totalRecords + (jrecords.length : Int)) := by
  by_cases hfo : fileOk
  case neg =>
    simp only [runImportTask, hfo] at hc
    simp at hc
  case pos =>
    subst hfo
    by_cases hu : job.resourceType = "users"
    · rcases hPU : processUsersImport { job with status := "processing", updatedAt := g.now }
        (saveImportJob db { job with status := "processing", updatedAt := g.now }) g ucsv
        with ⟨job2, db2, g2⟩
      obtain ⟨h1, h2, h3⟩ :=
        runImportLoop_invariants processBatchUsers processBatchUsers_processed
          { job with status := "processing", updatedAt := g.now }
          (saveImportJob db { job with status := "processing", updatedAt := g.now }) g ucsv
      rw [show runImportLoop processBatchUsers
            { job with status := "processing", updatedAt := g.now }
            (saveImportJob db { job with status := "processing", updatedAt := g.now }) g ucsv
          = (job2, db2, g2) from hPU] at h1 h2 h3
      simp only at h1 h2 h3
      have hrt : job2.resourceType = "users" := by rw [h3]; exact hu
      rw [hu] at hPU
      simp only [runImportTask, hu, hPU]
      simp [hrt]
      omega
    · by_cases ha : job.resourceType = "articles"
      · rcases hPA : processArticlesImport { job with status := "processing", updatedAt := g.now }
          (saveImportJob db { job with status := "processing", updatedAt := g.now }) g jrecords
          with ⟨job2, db2, g2⟩
        obtain ⟨h1, h2, h3⟩ :=
          runImportLoop_invariants processBatchArticles processBatchArticles_processed
            { job with status := "processing", updatedAt := g.now }
            (saveImportJob db { job with status := "processing", updatedAt := g.now }) g jrecords
        rw [show runImportLoop processBatchArticles
              { job with status := "processing", updatedAt := g.now }
              (saveImportJob db { job with status := "processing", updatedAt := g.now }) g jrecords
            = (job2, db2, g2) from hPA] at h1 h2 h3
        simp only at h1 h2 h3
        have hrt : job2.resourceType = "articles" := by rw [h3]; exact ha
        rw [ha] at hPA
        simp only [runImportTask, hu, ha, hPA]
        simp [hrt]
        rcases hcl : cleanupOrphanedRecords db2 "articles" with ⟨n, errs, db3⟩
        simp only [hcl]
        obtain ⟨hA1, hA2, hA3⟩ := applyOrphanAdjustment_counts job2 n errs
        refine ⟨by omega, by omega⟩
      · by_cases hcm : job.resourceType = "comments"
        · rcases hPC : processCommentsImport { job with status := "processing", updatedAt := g.now }
            (saveImportJob db { job with status := "processing", updatedAt := g.now }) g jrecords
            with ⟨job2, db2, g2⟩
          obtain ⟨h1, h2, h3⟩ :=
            runImportLoop_invariants processBatchComments processBatchComments_processed
              { job with status := "processing", updatedAt := g.now }
              (saveImportJob db { job with status := "processing", updatedAt := g.now }) g jrecords
          rw [show runImportLoop processBatchComments
                { job with status := "processing", updatedAt := g.now }
                (saveImportJob db { job with status := "processing", updatedAt := g.now }) g jrecords
              = (job2, db2, g2) from hPC] at h1 h2 h3
          simp only at h1 h2 h3
          have hrt : job2.resourceType = "comments" := by rw [h3]; exact hcm
          rw [hcm] at hPC
          simp only [runImportTask, hu, ha, hcm, hPC]
          simp [hrt]
          rcases hcl : cleanupOrphanedRecords db2 "comments" with ⟨n, errs, db3⟩
          simp only [hcl]
          obtain ⟨hA1, hA2, hA3⟩ := applyOrphanAdjustment_counts job2 n errs
          refine ⟨by omega, by omega⟩
        · exfalso
          simp only [runImportTask, hu, ha, hcm] at hc
          simp at hc

/-- Concrete instantiation of C2 (the spec's scenario: three user rows,
one with a blank email): the completed job satisfies the count
invariant and total equals the number of records in the stream. -/
theorem C2_count_invariant_witness :
    (runImportTask wUsersJob {} { counter := 0, now := 1 } true
        [sampleUserRecord, blankEmailRecord, sampleUserRecord2] []).1.successCount
      + (runImportTask wUsersJob {} { counter := 0, now := 1 } true
        [sampleUserRecord, blankEmailRecord, sampleUserRecord2] []).1.failCount
      = (runImportTask wUsersJob {} { counter := 0, now := 1 } true
        [sampleUserRecord, blankEmailRecord, sampleUserRecord2] []).1.totalRecords ∧
    (wUsersJob.resourceType = "users" →
      (runImportTask wUsersJob {} { counter := 0, now := 1 } true
        [sampleUserRecord, blankEmailRecord, sampleUserRecord2] []).1.totalRecords
        = wUsersJob.totalRecords
          + (([sampleUserRecord, blankEmailRecord, sampleUserRecord2] : List URecord).length : Int)) ∧
    ((wUsersJob.resourceType = "articles" ∨ wUsersJob.resourceType = "comments") →
      (runImportTask wUsersJob {} { counter := 0, now := 1 } true
        [sampleUserRecord, blankEmailRecord, sampleUserRecord2] []).1.totalRecords
        = wUsersJob.totalRecords + (([] : List JRecord).length : Int)) :=
  C2_count_invariant wUsersJob {} { counter := 0, now := 1 } true
    [sampleUserRecord, blankEmailRecord, sampleUserRecord2] []
    (by decide) (by decide)

/-! ## C3 — orphan reconciliation -/

/-- C3 counterexample: an articles import can complete while leaving a
stored comment whose article reference no longer resolves — re-importing
slug `s` rewrites the stored article's `author_id` to a dangling value,
the reconciliation pass deletes that article, and comments are not
scanned on an articles import. -/
theorem C3_counterexample :
    ((findImportJob (processImportJob c3DB "job1" { counter := 0, now := 7 } true [] c3Stream)
        "job1").map (fun j => j.status) = some "completed") ∧
    ∃ c ∈ (processImportJob c3DB "job1" { counter := 0, now := 7 } true [] c3Stream).comments,
      ¬∃ a ∈ (processImportJob c3DB "job1" { counter := 0, now := 7 } true [] c3Stream).articles,
        a.id = c.articleID := by decide

/-- C3 (amended): the reconciliation pass restores referential integrity
for the imported kind only.  After the articles pass every remaining
article's author resolves; after the comments pass every remaining
comment's two references resolve; each deleted row yields exactly one
reported validation outcome (with, for comments, an error per reference
exactly when that reference dangles), and `ProcessImportJob` reclassifies
the deleted rows from succeeded to failed.  Rows of the other kind are
not scanned, so an articles import may leave dangling comments (see the
counterexample). -/
theorem C3_reconciliation (db : DB) :
    (∀ a ∈ (cleanupOrphanedRecords db "articles").2.2.articles,
        ∃ u ∈ (cleanupOrphanedRecords db "articles").2.2.users, u.id = a.authorID) ∧
    ((cleanupOrphanedRecords db "articles").2.1.length
        = (cleanupOrphanedRecords db "articles").1) ∧
    (∀ r ∈ (cleanupOrphanedRecords db "articles").2.1,
        r.valid = false ∧ ∃ e ∈ r.errors, e.field = "author_id") ∧
    (∀ c ∈ (cleanupOrphanedRecords db "comments").2.2.comments,
        (∃ a ∈ (cleanupOrphanedRecords db "comments").2.2.articles, a.id = c.articleID) ∧
        (∃ u ∈ (cleanupOrphanedRecords db "comments").2.2.users, u.id = c.userID)) ∧
    ((cleanupOrphanedRecords db "comments").2.1.length
        = (cleanupOrphanedRecords db "comments").1) ∧
    (∀ r ∈ (cleanupOrphanedRecords db "comments").2.1,
        r.valid = false ∧
        ∃ c ∈ db.comments, r.recordID = c.id ∧
          ((∃ e ∈ r.errors, e.field = "article_id") ↔
            ¬∃ a ∈ db.articles, a.id = c.articleID) ∧
          ((∃ e ∈ r.errors, e.field = "user_id") ↔
            ¬∃ u ∈ db.users, u.id = c.userID)) ∧
    (∀ (job : ImportJob) (n : Nat) (errs : List RecordValidationResult),
        (applyOrphanAdjustment job n errs).successCount = job.successCount - (n : Int) ∧
        (applyOrphanAdjustment job n errs).failCount = job.failCount + (n : Int)) := by
  refine ⟨?_, ?_, ?_, ?_, ?_, ?_, ?_⟩
  · intro a ha
    simp only [cleanupOrphanedRecords, reduceIte, String.reduceEq] at ha ⊢
    simp only [List.mem_filter] at ha
    obtain ⟨-, hp⟩ := ha
    simpa using hp
  · simp [cleanupOrphanedRecords]
  · intro r hr
    simp only [cleanupOrphanedRecords, reduceIte, String.reduceEq] at hr
    simp only [List.mem_map] at hr
    obtain ⟨a, -, rfl⟩ := hr
    refine ⟨rfl, ?_⟩
    simp [RecordValidationResult.addError]
  · intro c hc
    simp only [cleanupOrphanedRecords, reduceIte, String.reduceEq] at hc ⊢
    simp only [List.mem_filter] at hc
    obtain ⟨-, hp⟩ := hc
    simp only [Bool.and_eq_true] at hp
    constructor
    · simpa using hp.1
    · simpa using hp.2
  · simp [cleanupOrphanedRecords]
  · intro r hr
    simp only [cleanupOrphanedRecords, reduceIte, String.reduceEq] at hr
    simp only [List.mem_map] at hr
    obtain ⟨c, hcm, rfl⟩ := hr
    have hcm2 := List.mem_filter.mp hcm
    by_cases hart : db.articles.any fun a => a.id = c.articleID
    · by_cases husr : db.users.any fun u => u.id = c.userID
      · refine ⟨by simp [hart, husr], c, hcm2.1,
          by simp [hart, husr, RecordValidationResult.addError], ?_, ?_⟩
        · simp [hart, husr, RecordValidationResult.addError]
          simpa using hart
        · simp [hart, husr, RecordValidationResult.addError]
          simpa using husr
      · refine ⟨by simp [hart, husr, RecordValidationResult.addError], c, hcm2.1,
          by simp [hart, husr, RecordValidationResult.addError], ?_, ?_⟩
        · simp [hart, husr, RecordValidationResult.addError]
          simpa using hart
        · simp [hart, husr, RecordValidationResult.addError]
          simpa using husr
    · by_cases husr : db.users.any fun u => u.id = c.userID
      · refine ⟨by simp [hart, husr, RecordValidationResult.addError], c, hcm2.1,
          by simp [hart, husr, RecordValidationResult.addError], ?_, ?_⟩
        · simp [hart, husr, RecordValidationResult.addError]
          simpa using hart
        · simp [hart, husr, RecordValidationResult.addError]
          simpa using husr
      · refine ⟨by simp [hart, husr, RecordValidationResult.addError], c, hcm2.1,
          by simp [hart, husr, RecordValidationResult.addError], ?_, ?_⟩
        · simp [hart, husr, RecordValidationResult.addError]
          simpa using hart
        · simp [hart, husr, RecordValidationResult.addError]
          simpa using husr
  · intro job n errs
    unfold applyOrphanAdjustment
    split_ifs <;> simp <;> omega

/-- Concrete instantiation of the amended C3 theorem: in the intact C3
store the surviving article resolves, and the count adjustment moves two
orphans from succeeded to failed. -/
theorem C3_reconciliation_witness :
    (∃ u ∈ (cleanupOrphanedRecords c3DB "articles").2.2.users, u.id = c3Article.authorID) ∧
    ((applyOrphanAdjustment c3Job 2 []).successCount = c3Job.successCount - (2 : Int) ∧
     (applyOrphanAdjustment c3Job 2 []).failCount = c3Job.failCount + (2 : Int)) :=
  ⟨(C3_reconciliation c3DB).1 c3Article (by decide),
   (C3_reconciliation c3DB).2.2.2.2.2.2 c3Job 2 []⟩


/-! ## C1 — idempotent job creation -/

/-- The accepted tail of `CreateImport` appends exactly one pending job
row carrying the idempotency key and the returned identifier. -/
theorem finishCreateImport_accepted (db : DB) (g : Gen) (rt fp key jid st : String)
    (cat : Nat) (db2 : DB) (g2 : Gen)
    (h : finishCreateImport db g rt fp key = (.accepted jid st cat, db2, g2)) :
    ∃ job : ImportJob, db2.importJobs = db.importJobs ++ [job] ∧
      job.id = jid ∧ job.idempotencyKey = key ∧ job.status = st ∧ job.createdAt = cat := by
  unfold finishCreateImport at h
  split at h
  · simp at h
  · simp only [freshUUID, Prod.mk.injEq, HandlerResult.accepted.injEq] at h
    obtain ⟨⟨hj, hs, hc⟩, hdb, hg⟩ := h
    exact ⟨_, by rw [← hdb], hj, rfl, hs, hc⟩



/-- An accepted `CreateImport` response implies the key was non-blank,
no job held it, and exactly one new row (with the returned identifier,
the key, and the returned status and timestamp) was appended. -/
theorem createImport_accepted_ex (db : DB) (g : Gen) (req : ImportRequest)
    (jid st : String) (cat : Nat) (db2 : DB) (g2 : Gen)
    (h : createImport db g req = (.accepted jid st cat, db2, g2)) :
    req.idempotencyKey ≠ "" ∧
    findImportJobByKey db req.idempotencyKey = none ∧
    ∃ job : ImportJob, db2.importJobs = db.importJobs ++ [job] ∧
      job.id = jid ∧ job.idempotencyKey = req.idempotencyKey ∧
      job.status = st ∧ job.createdAt = cat := by
  obtain ⟨key, body⟩ := req
  unfold createImport at h
  dsimp only at h ⊢
  by_cases hk : key = ""
  · rw [if_pos hk] at h
    simp at h
  · rw [if_neg hk] at h
    cases hfind : findImportJobByKey db key with
    | some j =>
        rw [hfind] at h
        simp at h
    | none =>
        rw [hfind] at h
        refine ⟨hk, rfl, ?_⟩
        cases body with
        | multipart fileProvided filename resourceType saveOk =>
            dsimp only at h
            split at h
            · simp at h
            · split at h
              · simp at h
              · split at h
                · simp only [freshUUID] at h
                  split at h
                  · simp at h
                  · have := finishCreateImport_accepted _ _ _ _ _ _ _ _ _ _ h
                    obtain ⟨job, hjobs, rest⟩ := this
                    exact ⟨job, hjobs, rest⟩
                · simp at h
        | jsonBody resourceType format fileURL downloadOk =>
            dsimp only at h
            split at h
            · simp at h
            · split at h
              · simp at h
              · simp only [freshUUID] at h
                split at h
                · simp at h
                · have := finishCreateImport_accepted _ _ _ _ _ _ _ _ _ _ h
                  obtain ⟨job, hjobs, rest⟩ := this
                  exact ⟨job, hjobs, rest⟩



/-- An accepted `CreateExport` response implies the binding checks
passed, no job held the key, and exactly one new row was appended. -/
theorem createExport_accepted_ex (db : DB) (g : Gen) (req : ExportRequest)
    (jid st : String) (cat : Nat) (db2 : DB) (g2 : Gen)
    (h : createExport db g req = (.accepted jid st cat, db2, g2)) :
    (req.idempotencyKey ≠ "" ∧ isKnownResource req.resourceType = true ∧
      (req.format = "csv" ∨ req.format = "ndjson")) ∧
    findExportJobByKey db req.idempotencyKey = none ∧
    ∃ job : ExportJob, db2.exportJobs = db.exportJobs ++ [job] ∧
      job.id = jid ∧ job.idempotencyKey = req.idempotencyKey ∧
      job.status = st ∧ job.createdAt = cat := by
  unfold createExport at h
  split at h
  · simp at h
  case isFalse hc =>
    simp only [Bool.not_eq_true, Bool.not_eq_false', Bool.and_eq_true, Bool.or_eq_true,
      decide_eq_true_iff] at hc
    cases hfind : findExportJobByKey db req.idempotencyKey with
    | some j =>
        rw [hfind] at h
        simp at h
    | none =>
        rw [hfind] at h
        refine ⟨⟨hc.1.1, hc.1.2, hc.2⟩, rfl, ?_⟩
        simp only [freshUUID, Prod.mk.injEq, HandlerResult.accepted.injEq] at h
        obtain ⟨⟨hj, hs, hcat⟩, hdb, hg⟩ := h
        exact ⟨_, by rw [← hdb], hj, rfl, hs, hcat⟩

/-- A `CreateImport` call whose non-blank key is already held by a
stored job answers with that job and touches nothing. -/
theorem createImport_hit (db : DB) (g : Gen) (req : ImportRequest) (j : ImportJob)
    (hk : req.idempotencyKey ≠ "")
    (hfind : findImportJobByKey db req.idempotencyKey = some j) :
    createImport db g req = (.okExisting j.id j.status j.createdAt, db, g) := by
  unfold createImport
  rw [if_neg hk, hfind]

/-- A `CreateExport` call that passes binding and whose key is already
held by a stored job answers with that job and touches nothing. -/
theorem createExport_hit (db : DB) (g : Gen) (req : ExportRequest) (j : ExportJob)
    (hk : req.idempotencyKey ≠ "")
    (hknown : isKnownResource req.resourceType = true)
    (hfmt : req.format = "csv" ∨ req.format = "ndjson")
    (hfind : findExportJobByKey db req.idempotencyKey = some j) :
    createExport db g req = (.okExisting j.id j.status j.createdAt, db, g) := by
  rcases hfmt with hf | hf <;> simp [createExport, hk, hknown, hf, hfind]

/-- C1: job creation is idempotent per key and kind, with the lookup
before any side effect.  A `CreateImport` or `CreateExport` call whose
non-blank key is held by a stored job — whatever state that job is in —
answers 200 with the stored identifier and leaves the store (job rows
and files alike) and the generator untouched; an accepted first call
appends exactly one job row holding the key and the returned
identifier, and an immediate retry answers 200 with that same
identifier, again without touching the store. -/
theorem C1_idempotent_job_creation :
    (∀ (db : DB) (g : Gen) (req : ImportRequest) (j : ImportJob),
        req.idempotencyKey ≠ "" →
        findImportJobByKey db req.idempotencyKey = some j →
        createImport db g req = (.okExisting j.id j.status j.createdAt, db, g)) ∧
    (∀ (db : DB) (g : Gen) (req : ExportRequest) (j : ExportJob),
        req.idempotencyKey ≠ "" →
        isKnownResource req.resourceType = true →
        (req.format = "csv" ∨ req.format = "ndjson") →
        findExportJobByKey db req.idempotencyKey = some j →
        createExport db g req = (.okExisting j.id j.status j.createdAt, db, g)) ∧
    (∀ (db : DB) (g : Gen) (req : ImportRequest) (jid st : String) (cat : Nat)
        (db2 : DB) (g2 : Gen),
        createImport db g req = (.accepted jid st cat, db2, g2) →
        (∃ job : ImportJob, db2.importJobs = db.importJobs ++ [job] ∧
            job.id = jid ∧ job.idempotencyKey = req.idempotencyKey) ∧
        ∀ g3 : Gen, createImport db2 g3 req = (.okExisting jid st cat, db2, g3)) ∧
    (∀ (db : DB) (g : Gen) (req : ExportRequest) (jid st : String) (cat : Nat)
        (db2 : DB) (g2 : Gen),
        createExport db g req = (.accepted jid st cat, db2, g2) →
        (∃ job : ExportJob, db2.exportJobs = db.exportJobs ++ [job] ∧
            job.id = jid ∧ job.idempotencyKey = req.idempotencyKey) ∧
        ∀ g3 : Gen, createExport db2 g3 req = (.okExisting jid st cat, db2, g3)) := by
  refine ⟨createImport_hit, createExport_hit, ?_, ?_⟩
  · intro db g req jid st cat db2 g2 h
    obtain ⟨hk, hfind, job, hjobs, hid, hkey, hst, hcat⟩ := createImport_accepted_ex
      db g req jid st cat db2 g2 h
    refine ⟨⟨job, hjobs, hid, hkey⟩, ?_⟩
    intro g3
    have hfind2 : findImportJobByKey db2 req.idempotencyKey = some job := by
      unfold findImportJobByKey at hfind ⊢
      rw [hjobs, List.find?_append, hfind]
      simp [hkey]
    rw [createImport_hit db2 g3 req job hk hfind2, hid, hst, hcat]
  · intro db g req jid st cat db2 g2 h
    obtain ⟨⟨hk, hknown, hfmt⟩, hfind, job, hjobs, hid, hkey, hst, hcat⟩ :=
      createExport_accepted_ex db g req jid st cat db2 g2 h
    refine ⟨⟨job, hjobs, hid, hkey⟩, ?_⟩
    intro g3
    have hfind2 : findExportJobByKey db2 req.idempotencyKey = some job := by
      unfold findExportJobByKey at hfind ⊢
      rw [hjobs, List.find?_append, hfind]
      simp [hkey]
    rw [createExport_hit db2 g3 req job hk hknown hfmt hfind2, hid, hst, hcat]

/-- C1 witness: retries carrying the keys of a stored mid-processing
pair of jobs, one of each kind, answer 200 with the stored
identifiers, states, and timestamps, and change nothing. -/
theorem C1_idempotent_job_creation_witness :
    createImport c1DB c1Gen c1ImpReq = (.okExisting "ij1" "processing" 3, c1DB, c1Gen) ∧
    createExport c1DB c1Gen c1ExpReq = (.okExisting "ej1" "processing" 3, c1DB, c1Gen) :=
  ⟨C1_idempotent_job_creation.1 c1DB c1Gen c1ImpReq wImportJob (by decide) (by decide),
   C1_idempotent_job_creation.2.1 c1DB c1Gen c1ExpReq wExportJob (by decide) (by decide)
     (Or.inl rfl) (by decide)⟩

/-! ## C10 — export finalization and the unreachable failed state -/

/-- `exportUsers` ends in `return nil` whatever the query oracle does. -/
theorem exportUsers_err_none (qerr : Nat → Bool) (db : DB) (format : String)
    (fields : List String) (filters : List (String × String)) (jb : ExportJob) :
    (exportUsers qerr db format fields filters jb).2.2 = none := by
  simp [exportUsers]

/-- `exportArticles` ends in `return nil` whatever the query oracle does. -/
theorem exportArticles_err_none (qerr : Nat → Bool) (db : DB) (format : String)
    (fields : List String) (filters : List (String × String)) (jb : ExportJob) :
    (exportArticles qerr db format fields filters jb).2.2 = none := by
  simp [exportArticles]

/-- `exportComments` ends in `return nil` whatever the query oracle does. -/
theorem exportComments_err_none (qerr : Nat → Bool) (db : DB) (format : String)
    (fields : List String) (filters : List (String × String)) (jb : ExportJob) :
    (exportComments qerr db format fields filters jb).2.2 = none := by
  simp [exportComments]

/-- A download URL built under `/exports/` is never blank. -/
theorem exports_url_ne_blank (s : String) : "/exports/" ++ s ≠ "" := by
  intro h
  have hlen : ("/exports/" ++ s).length = 0 := by rw [h]; rfl
  rw [String.length_append] at hlen
  have h9 : ("/exports/" : String).length = 9 := rfl
  omega

/-- With the output file created, `runExportTask` finalizes the job as
completed at the current instant with the `/exports/` download URL, for
every query oracle. -/
theorem runExportTask_ok (job : ExportJob) (db : DB) (g : Gen)
    (fields : List String) (filters : List (String × String)) (qerr : Nat → Bool) :
    (runExportTask job db g fields filters true qerr).1.status = "completed" ∧
    (runExportTask job db g fields filters true qerr).1.completedAt = some g.now ∧
    (runExportTask job db g fields filters true qerr).1.downloadURL =
      "/exports/" ++ (job.resourceType ++ "_" ++ strTake job.id 8 ++ "_" ++
        toString g.now ++ "." ++ job.format) := by
  simp only [runExportTask, Bool.not_true, Bool.false_eq_true, if_false]
  by_cases h1 : job.resourceType = "users"
  · rcases hX : exportUsers qerr (saveExportJob db { job with status := "processing" })
      job.format fields filters { job with status := "processing" } with ⟨lines, job3, err⟩
    have herr := exportUsers_err_none qerr (saveExportJob db { job with status := "processing" })
      job.format fields filters { job with status := "processing" }
    rw [hX] at herr
    simp only [h1, reduceIte, hX, herr] at *
    simp [herr]
  · by_cases h2 : job.resourceType = "articles"
    · rcases hX : exportArticles qerr (saveExportJob db { job with status := "processing" })
        job.format fields filters { job with status := "processing" } with ⟨lines, job3, err⟩
      have herr := exportArticles_err_none qerr (saveExportJob db { job with status := "processing" })
        job.format fields filters { job with status := "processing" }
      rw [hX] at herr
      simp only [h1, h2, reduceIte, hX, herr] at *
      simp [herr]
    · by_cases h3 : job.resourceType = "comments"
      · rcases hX : exportComments qerr (saveExportJob db { job with status := "processing" })
          job.format fields filters { job with status := "processing" } with ⟨lines, job3, err⟩
        have herr := exportComments_err_none qerr (saveExportJob db { job with status := "processing" })
          job.format fields filters { job with status := "processing" }
        rw [hX] at herr
        simp only [h1, h2, h3, reduceIte, hX, herr] at *
        simp [herr]
      · simp only [h1, h2, h3, reduceIte]
        simp



/-- With file creation failed, `runExportTask` marks the job failed at
the current instant. -/
theorem runExportTask_fail (job : ExportJob) (db : DB) (g : Gen)
    (fields : List String) (filters : List (String × String)) (qerr : Nat → Bool) :
    (runExportTask job db g fields filters false qerr).1.status = "failed" ∧
    (runExportTask job db g fields filters false qerr).1.completedAt = some g.now := by
  simp [runExportTask]

/-- C10: the per-resource export loops treat a query error as
end-of-data and return nil for every query oracle; when the output file
is created, the job finalizes as completed with a completion timestamp
and a non-blank download URL even if a page query errors mid-export, so
the failed state is reachable only from a file-creation failure. -/
theorem C10_export_finalization (job : ExportJob) (db : DB) (g : Gen)
    (fields : List String) (filters : List (String × String)) (createOk : Bool)
    (qerr : Nat → Bool) :
    ((exportUsers qerr db job.format fields filters job).2.2 = none ∧
     (exportArticles qerr db job.format fields filters job).2.2 = none ∧
     (exportComments qerr db job.format fields filters job).2.2 = none) ∧
    (createOk = true →
      (runExportTask job db g fields filters createOk qerr).1.status = "completed" ∧
      (runExportTask job db g fields filters createOk qerr).1.completedAt = some g.now ∧
      (runExportTask job db g fields filters createOk qerr).1.downloadURL ≠ "") ∧
    ((runExportTask job db g fields filters createOk qerr).1.status = "failed" →
      createOk = false) := by
  refine ⟨⟨exportUsers_err_none qerr db job.format fields filters job,
      exportArticles_err_none qerr db job.format fields filters job,
      exportComments_err_none qerr db job.format fields filters job⟩, ?_, ?_⟩
  · intro hc
    subst hc
    obtain ⟨hs, hcp, hurl⟩ := runExportTask_ok job db g fields filters qerr
    exact ⟨hs, hcp, by rw [hurl]; exact exports_url_ne_blank _⟩
  · intro hf
    cases createOk with
    | false => rfl
    | true =>
        obtain ⟨hs, hcp, hurl⟩ := runExportTask_ok job db g fields filters qerr
        rw [hs] at hf
        exact absurd hf (by decide)

/-- C10 witness: a concrete pending users export finalizes completed
with a timestamp and non-blank URL although every page query errors. -/
theorem C10_export_finalization_witness :
    (runExportTask wExportJob2 {} { counter := 0, now := 9 } [] [] true
      (fun _ => true)).1.status = "completed" ∧
    (runExportTask wExportJob2 {} { counter := 0, now := 9 } [] [] true
      (fun _ => true)).1.completedAt = some 9 ∧
    (runExportTask wExportJob2 {} { counter := 0, now := 9 } [] [] true
      (fun _ => true)).1.downloadURL ≠ "" :=
  (C10_export_finalization wExportJob2 {} { counter := 0, now := 9 } [] [] true
    (fun _ => true)).2.1 rfl

end BulkIE
